import Mathlib

/-!
Shallow embedding of the hierarchical quota-allocation engine of the
`kubernetes-wallets` backend (`src/backend/app`): the org data model,
the allocation/quota services (`AllocationService`, `ProjectService`,
`AdminService.delete_team`) and the scoped allocation tree, together
with proofs and refutations of the specified properties.

Conventions of the embedding:
* Database rows become structures; tables become lists of rows inside `St`.
* Machine integers are `Int` (Python ints are unbounded; SQL ints are
  modelled unbounded as well, overflow is not relevant at these sizes).
* A service call is a function `St → args → Except Err St` (or returning
  the created row too); raising an HTTP error becomes `Except.error`, and
  since every mutation runs in one transaction, an error leaves the state
  unchanged by construction (the caller keeps the pre-state).
* `SELECT ... LIMIT`-free lookups (`scalar_one_or_none`) become `List.find?`;
  an ORM object mutation becomes `updateFirst` (replace the first matching
  row); `session.delete` becomes `removeFirst`.
-/

namespace KWallets

/-- `Claims` dataclass from `app/auth/jwt.py` (the `exp` field is not read
by any service and is omitted). `scope_id` is nullable. -/
structure Claims where
  sub : String
  role : String
  scope_id : Option String
deriving Repr, DecidableEq

/-- `Server` row (`app/models/server.py`): only the fields the allocation
engine reads. -/
structure Server where
  id : String
  cpu : Int
  ram_gb : Int
deriving Repr, DecidableEq

/-- `Center` row (`app/models/org.py`). -/
structure Center where
  id : String
  name : String
deriving Repr, DecidableEq

/-- `Field` row (`app/models/org.py`). -/
structure FieldRow where
  id : String
  center_id : String
  name : String
  site : String
deriving Repr, DecidableEq

/-- `Department` row (`app/models/org.py`). -/
structure Department where
  id : String
  field_id : String
  name : String
deriving Repr, DecidableEq

/-- `Team` row (`app/models/org.py`). -/
structure Team where
  id : String
  department_id : String
  name : String
deriving Repr, DecidableEq

/-- `FieldServerAllocation` row (`app/models/org.py`); `server_id` carries a
UNIQUE constraint in the schema. -/
structure FieldServerAllocation where
  id : String
  server_id : String
  field_id : String
  allocated_by : String
deriving Repr, DecidableEq

/-- `DepartmentQuotaAllocation` row (`app/models/org.py`); unique on
`(department_id, site)`; `cpu_used`/`ram_gb_used` default to 0. -/
structure DeptQuota where
  id : String
  field_id : String
  department_id : String
  site : String
  cpu_limit : Int
  ram_gb_limit : Int
  cpu_used : Int
  ram_gb_used : Int
deriving Repr, DecidableEq

/-- `TeamQuotaAllocation` row (`app/models/org.py`); unique on
`(team_id, site)`. -/
structure TeamQuota where
  id : String
  department_id : String
  team_id : String
  site : String
  cpu_limit : Int
  ram_gb_limit : Int
  cpu_used : Int
  ram_gb_used : Int
deriving Repr, DecidableEq

/-- `Project` row (`app/models/project.py`): the fields the services read. -/
structure Project where
  id : String
  team_id : String
  name : String
  site : String
  sla_type : String
  performance_tier : String
  namespace_name : String
  quota_cpu : Int
  quota_ram_gb : Int
  status : String
deriving Repr, DecidableEq

/-- The database state: one list per table. -/
structure St where
  centers : List Center
  fields : List FieldRow
  depts : List Department
  teams : List Team
  servers : List Server
  serverAllocs : List FieldServerAllocation
  deptQuotas : List DeptQuota
  teamQuotas : List TeamQuota
  projects : List Project
deriving Repr, DecidableEq

/-- Error taxonomy of `app/errors.py`; `keyError` stands for an uncaught
Python `KeyError` (unknown SLA/perf-tier pair in `_get_quota`). -/
inductive Err where
  | notFound
  | forbidden
  | conflict
  | quotaExceeded
  | validation
  | keyError
deriving Repr, DecidableEq

/-- Replace the first element satisfying `p` by its image under `f`
(an ORM in-place row mutation). -/
def updateFirst (p : α → Bool) (f : α → α) : List α → List α
  | [] => []
  | a :: l => if p a then f a :: l else a :: updateFirst p f l

/-- Remove the first element satisfying `p` (`session.delete` of a row
found by `find?`). -/
def removeFirst (p : α → Bool) : List α → List α
  | [] => []
  | a :: l => if p a then l else a :: removeFirst p l

/-- Sum of `g` over a list (models SQL `SUM(...)` with `COALESCE(..., 0)`). -/
def sumBy (g : α → Int) : List α → Int
  | [] => 0
  | a :: l => g a + sumBy g l

-- ── Repository lookups (app/repositories/allocation_repo.py) ──────────────

/-- `get_server_allocation`: the allocation of a server, if any. -/
def findServerAlloc (l : List FieldServerAllocation) (server_id : String) :
    Option FieldServerAllocation :=
  l.find? (fun a => a.server_id == server_id)

/-- `get_server_allocation_by_id` (before the NotFound raise). -/
def findServerAllocById (l : List FieldServerAllocation) (allocation_id : String) :
    Option FieldServerAllocation :=
  l.find? (fun a => a.id == allocation_id)

/-- `get_dept_quota_for_update`: dept quota row keyed `(department_id, site)`. -/
def findDeptQuota (l : List DeptQuota) (dept_id site : String) : Option DeptQuota :=
  l.find? (fun q => q.department_id == dept_id && q.site == site)

/-- `get_dept_quota_by_id` (before the NotFound raise). -/
def findDeptQuotaById (l : List DeptQuota) (quota_id : String) : Option DeptQuota :=
  l.find? (fun q => q.id == quota_id)

/-- `get_team_quota_for_update`: team quota row keyed `(team_id, site)`. -/
def findTeamQuota (l : List TeamQuota) (team_id site : String) : Option TeamQuota :=
  l.find? (fun q => q.team_id == team_id && q.site == site)

/-- `get_team_quota_by_id` (before the NotFound raise). -/
def findTeamQuotaById (l : List TeamQuota) (quota_id : String) : Option TeamQuota :=
  l.find? (fun q => q.id == quota_id)

def findField (l : List FieldRow) (field_id : String) : Option FieldRow :=
  l.find? (fun f => f.id == field_id)

def findDept (l : List Department) (dept_id : String) : Option Department :=
  l.find? (fun d => d.id == dept_id)

def findTeam (l : List Team) (team_id : String) : Option Team :=
  l.find? (fun t => t.id == team_id)

def findServer (l : List Server) (server_id : String) : Option Server :=
  l.find? (fun s => s.id == server_id)

def findProject (l : List Project) (project_id : String) : Option Project :=
  l.find? (fun p => p.id == project_id)

/-- `field_has_dept_quotas`: counts dept quota rows of the field with
`cpu_used > 0` (only the CPU dimension is inspected). -/
def field_has_dept_quotas (l : List DeptQuota) (field_id : String) : Bool :=
  l.any (fun q => q.field_id == field_id && decide (q.cpu_used > 0))

/-- Whether the field row named by an allocation has the given site
(the `Field.site == site` join clause of `get_field_total_cpu_ram`). -/
def fieldSiteIs (fields : List FieldRow) (field_id site : String) : Bool :=
  match findField fields field_id with
  | some f => f.site == site
  | none => false

/-- CPU of the server joined to an allocation row (inner join: a missing
server row contributes no row, hence 0). -/
def allocServerCpu (servers : List Server) (a : FieldServerAllocation) : Int :=
  match findServer servers a.server_id with
  | some sv => sv.cpu
  | none => 0

/-- RAM of the server joined to an allocation row. -/
def allocServerRam (servers : List Server) (a : FieldServerAllocation) : Int :=
  match findServer servers a.server_id with
  | some sv => sv.ram_gb
  | none => 0

/-- `get_field_total_cpu_ram` (CPU component): sum of CPUs of servers
allocated to `field_id` whose field row has site `site`. -/
def fieldTotalCpu (fields : List FieldRow) (servers : List Server)
    (allocs : List FieldServerAllocation) (field_id site : String) : Int :=
  sumBy (fun a =>
    if a.field_id == field_id && fieldSiteIs fields a.field_id site then
      allocServerCpu servers a
    else 0) allocs

/-- `get_field_total_cpu_ram` (RAM component). -/
def fieldTotalRam (fields : List FieldRow) (servers : List Server)
    (allocs : List FieldServerAllocation) (field_id site : String) : Int :=
  sumBy (fun a =>
    if a.field_id == field_id && fieldSiteIs fields a.field_id site then
      allocServerRam servers a
    else 0) allocs

/-- `get_dept_quota_sum_for_field_site` (CPU component): sum of `cpu_limit`
over the field's dept quotas at a site. -/
def deptCpuLimitSum (l : List DeptQuota) (field_id site : String) : Int :=
  sumBy (fun q => if q.field_id == field_id && q.site == site then q.cpu_limit else 0) l

/-- `get_dept_quota_sum_for_field_site` (RAM component). -/
def deptRamLimitSum (l : List DeptQuota) (field_id site : String) : Int :=
  sumBy (fun q => if q.field_id == field_id && q.site == site then q.ram_gb_limit else 0) l

/-- `get_team_quota_sum_for_dept_site` (CPU component). -/
def teamCpuLimitSum (l : List TeamQuota) (dept_id site : String) : Int :=
  sumBy (fun q => if q.department_id == dept_id && q.site == site then q.cpu_limit else 0) l

/-- `get_team_quota_sum_for_dept_site` (RAM component). -/
def teamRamLimitSum (l : List TeamQuota) (dept_id site : String) : Int :=
  sumBy (fun q => if q.department_id == dept_id && q.site == site then q.ram_gb_limit else 0) l

-- ── RBAC helpers (app/auth/roles.py) ──────────────────────────────────────

/-- `is_super_admin`: membership in `SUPER_ADMIN_ROLES`. -/
def is_super_admin (c : Claims) : Bool :=
  c.role == "center_admin" || c.role == "platform_admin"

-- ── AllocationService (app/services/allocation_service.py) ────────────────

/-- `AllocationService.assign_server_to_field`. `newId` stands for the
database-generated primary key of the inserted row. -/
def assign_server_to_field (s : St) (c : Claims) (server_id field_id newId : String) :
    Except Err St :=
  if c.role != "center_admin" then .error .forbidden
  else match findServer s.servers server_id with
  | none => .error .notFound
  | some _ =>
    match findField s.fields field_id with
    | none => .error .notFound
    | some _ =>
      -- create_server_allocation: Conflict if the server already has one
      match findServerAlloc s.serverAllocs server_id with
      | some _ => .error .conflict
      | none =>
        .ok { s with
              serverAllocs := s.serverAllocs ++ [⟨newId, server_id, field_id, c.sub⟩] }

/-- `AllocationService.remove_server_from_field`. -/
def remove_server_from_field (s : St) (c : Claims) (allocation_id : String) :
    Except Err St :=
  if c.role != "center_admin" then .error .forbidden
  else match findServerAllocById s.serverAllocs allocation_id with
  | none => .error .notFound
  | some a =>
    if field_has_dept_quotas s.deptQuotas a.field_id then .error .conflict
    else .ok { s with
               serverAllocs := removeFirst (fun x => x.id == allocation_id) s.serverAllocs }

/-- `AllocationService.swap_server_between_fields`. -/
def swap_server_between_fields (s : St) (c : Claims)
    (server_id from_field_id to_field_id newId : String) : Except Err St :=
  if c.role != "center_admin" then .error .forbidden
  else match findField s.fields from_field_id with
  | none => .error .notFound
  | some _ =>
    match findField s.fields to_field_id with
    | none => .error .notFound
    | some _ =>
      match findServerAlloc s.serverAllocs server_id with
      | none => .error .conflict
      | some existing =>
        if existing.field_id != from_field_id then .error .conflict
        else
          let allocs1 := removeFirst (fun x => x.id == existing.id) s.serverAllocs
          -- create_server_allocation re-checks for an existing allocation
          match findServerAlloc allocs1 server_id with
          | some _ => .error .conflict
          | none =>
            .ok { s with
                  serverAllocs := allocs1 ++ [⟨newId, server_id, to_field_id, c.sub⟩] }

/-- `AllocationService.create_dept_quota`. -/
def create_dept_quota (s : St) (c : Claims) (field_id dept_id site : String)
    (cpu_limit ram_gb_limit : Int) (newId : String) : Except Err St :=
  if c.role != "field_admin" || c.scope_id != some field_id then .error .forbidden
  else match findDeptQuota s.deptQuotas dept_id site with
  | some _ => .error .conflict
  | none =>
    let field_cpu := fieldTotalCpu s.fields s.servers s.serverAllocs field_id site
    let field_ram := fieldTotalRam s.fields s.servers s.serverAllocs field_id site
    let used_cpu := deptCpuLimitSum s.deptQuotas field_id site
    let used_ram := deptRamLimitSum s.deptQuotas field_id site
    if used_cpu + cpu_limit > field_cpu then .error .quotaExceeded
    else if used_ram + ram_gb_limit > field_ram then .error .quotaExceeded
    else .ok { s with
               deptQuotas := s.deptQuotas ++
                 [⟨newId, field_id, dept_id, site, cpu_limit, ram_gb_limit, 0, 0⟩] }

/-- `AllocationService.update_dept_quota`. -/
def update_dept_quota (s : St) (c : Claims) (quota_id : String)
    (cpu_limit ram_gb_limit : Int) : Except Err St :=
  match findDeptQuotaById s.deptQuotas quota_id with
  | none => .error .notFound
  | some quota =>
    if c.role != "field_admin" || c.scope_id != some quota.field_id then .error .forbidden
    else if cpu_limit < quota.cpu_used then .error .quotaExceeded
    else if ram_gb_limit < quota.ram_gb_used then .error .quotaExceeded
    else
      let field_cpu := fieldTotalCpu s.fields s.servers s.serverAllocs quota.field_id quota.site
      let field_ram := fieldTotalRam s.fields s.servers s.serverAllocs quota.field_id quota.site
      let used_cpu := deptCpuLimitSum s.deptQuotas quota.field_id quota.site
      let used_ram := deptRamLimitSum s.deptQuotas quota.field_id quota.site
      if used_cpu + (cpu_limit - quota.cpu_limit) > field_cpu then .error .quotaExceeded
      else if used_ram + (ram_gb_limit - quota.ram_gb_limit) > field_ram then .error .quotaExceeded
      else .ok { s with
                 deptQuotas :=
                   updateFirst (fun q => q.id == quota_id)
                     (fun q => { q with cpu_limit := cpu_limit, ram_gb_limit := ram_gb_limit })
                     s.deptQuotas }

/-- `AllocationService.create_team_quota`. -/
def create_team_quota (s : St) (c : Claims) (dept_id team_id site : String)
    (cpu_limit ram_gb_limit : Int) (newId : String) : Except Err St :=
  if c.role != "dept_admin" || c.scope_id != some dept_id then .error .forbidden
  else match findTeamQuota s.teamQuotas team_id site with
  | some _ => .error .conflict
  | none =>
    match findDeptQuota s.deptQuotas dept_id site with
    | none => .error .quotaExceeded
    | some dept_quota =>
      let used_cpu := teamCpuLimitSum s.teamQuotas dept_id site
      let used_ram := teamRamLimitSum s.teamQuotas dept_id site
      if used_cpu + cpu_limit > dept_quota.cpu_limit then .error .quotaExceeded
      else if used_ram + ram_gb_limit > dept_quota.ram_gb_limit then .error .quotaExceeded
      else .ok { s with
                 teamQuotas := s.teamQuotas ++
                   [⟨newId, dept_id, team_id, site, cpu_limit, ram_gb_limit, 0, 0⟩] }

/-- `AllocationService.update_team_quota`. When no department quota row
exists for `(quota.department_id, quota.site)` the parent-headroom check
is skipped entirely. -/
def update_team_quota (s : St) (c : Claims) (quota_id : String)
    (cpu_limit ram_gb_limit : Int) : Except Err St :=
  match findTeamQuotaById s.teamQuotas quota_id with
  | none => .error .notFound
  | some quota =>
    if c.role != "dept_admin" || c.scope_id != some quota.department_id then .error .forbidden
    else if cpu_limit < quota.cpu_used then .error .quotaExceeded
    else if ram_gb_limit < quota.ram_gb_used then .error .quotaExceeded
    else
      let apply := fun _ : Unit =>
        St.mk s.centers s.fields s.depts s.teams s.servers s.serverAllocs s.deptQuotas
          (updateFirst (fun q => q.id == quota_id)
            (fun q => { q with cpu_limit := cpu_limit, ram_gb_limit := ram_gb_limit })
            s.teamQuotas)
          s.projects
      match findDeptQuota s.deptQuotas quota.department_id quota.site with
      | none => .ok (apply ())
      | some dept_quota =>
        let used_cpu := teamCpuLimitSum s.teamQuotas quota.department_id quota.site
        let used_ram := teamRamLimitSum s.teamQuotas quota.department_id quota.site
        if used_cpu + (cpu_limit - quota.cpu_limit) > dept_quota.cpu_limit then
          .error .quotaExceeded
        else if used_ram + (ram_gb_limit - quota.ram_gb_limit) > dept_quota.ram_gb_limit then
          .error .quotaExceeded
        else .ok (apply ())

-- ── ProjectService (app/services/project_service.py) ──────────────────────

/-- `_SLA_QUOTA` / `_get_quota`: the static SLA × performance-tier table;
`none` corresponds to a Python `KeyError`. -/
def slaQuota (sla_type performance_tier : String) : Option (Int × Int) :=
  if sla_type == "bronze" then
    if performance_tier == "regular" then some (2, 4)
    else if performance_tier == "high_performance" then some (4, 8)
    else none
  else if sla_type == "silver" then
    if performance_tier == "regular" then some (4, 16)
    else if performance_tier == "high_performance" then some (8, 32)
    else none
  else if sla_type == "gold" then
    if performance_tier == "regular" then some (8, 32)
    else if performance_tier == "high_performance" then some (16, 64)
    else none
  else none

/-- A character allowed in a DNS-1123 namespace name (`[a-z0-9-]`). -/
def nsChar (ch : Char) : Bool :=
  (('a' ≤ ch && ch ≤ 'z') || ('0' ≤ ch && ch ≤ '9') || ch == '-')

/-- Collapse runs of hyphens (`re.sub(r"-+", "-", ...)`). -/
def collapseHyphens : List Char → List Char
  | [] => []
  | '-' :: '-' :: rest => collapseHyphens ('-' :: rest)
  | ch :: rest => ch :: collapseHyphens rest

/-- `make_namespace_name` from `app/helm/provisioner.py`: lowercase,
replace characters outside `[a-z0-9-]` by `-`, collapse repeated hyphens,
strip leading/trailing hyphens, truncate to 63 characters. -/
def make_namespace_name (team_id project_name : String) : String :=
  let raw := (team_id ++ "-" ++ project_name).data.map Char.toLower
  let sanitized := raw.map (fun ch => if nsChar ch then ch else '-')
  let collapsed := collapseHyphens sanitized
  let stripped := (collapsed.dropWhile (fun ch => ch == '-')).reverse
      |>.dropWhile (fun ch => ch == '-') |>.reverse
  String.mk (stripped.take 63)

/-- `ProjectService.create_project` (the synchronous transaction: RBAC,
SLA lookup, quota lock/check, project insert, quota debit). The
asynchronous provisioning hand-off happens outside the transaction and is
modelled separately by `rollback_quota_and_fail`. -/
def create_project (s : St) (c : Claims) (name site sla_type performance_tier newId : String) :
    Except Err (Project × St) :=
  if c.role != "team_lead" then .error .forbidden
  else match slaQuota sla_type performance_tier with
  | none => .error .keyError
  | some (required_cpu, required_ram) =>
    match c.scope_id with
    | none =>
      -- team_id is NULL: the (team, site) quota lookup can never match
      .error .quotaExceeded
    | some team_id =>
      match findTeamQuota s.teamQuotas team_id site with
      | none => .error .quotaExceeded
      | some quota =>
        if quota.cpu_used + required_cpu > quota.cpu_limit then .error .quotaExceeded
        else if quota.ram_gb_used + required_ram > quota.ram_gb_limit then .error .quotaExceeded
        else
          let project : Project :=
            ⟨newId, team_id, name, site, sla_type, performance_tier,
             make_namespace_name team_id name, required_cpu, required_ram, "provisioning"⟩
          .ok (project,
               { s with
                 projects := s.projects ++ [project],
                 teamQuotas :=
                   updateFirst (fun q => q.team_id == team_id && q.site == site)
                     (fun q => { q with cpu_used := q.cpu_used + required_cpu,
                                        ram_gb_used := q.ram_gb_used + required_ram })
                     s.teamQuotas })

/-- `ProjectService._rollback_quota_and_fail`: credits the reservation back
(floored at zero) when both reserved amounts are truthy and the quota row
exists, and sets the project status to `"failed"`. Every exception
(including a missing project) is caught and logged, leaving the state
unchanged. -/
def rollback_quota_and_fail (s : St) (project_id : String) : St :=
  match findProject s.projects project_id with
  | none => s
  | some project =>
    let projects1 := updateFirst (fun p => p.id == project_id)
      (fun p => { p with status := "failed" }) s.projects
    if project.quota_cpu != 0 && project.quota_ram_gb != 0 then
      { s with
        teamQuotas :=
          updateFirst (fun q => q.team_id == project.team_id && q.site == project.site)
            (fun q => { q with
              cpu_used := max 0 (q.cpu_used - project.quota_cpu),
              ram_gb_used := max 0 (q.ram_gb_used - project.quota_ram_gb) })
            s.teamQuotas,
        projects := projects1 }
    else { s with projects := projects1 }

/-- `ProjectService.delete_project` (the synchronous transaction; the
asynchronous deprovision call mutates no local state). No precondition is
placed on the project's current status. -/
def delete_project (s : St) (c : Claims) (project_id : String) : Except Err St :=
  if c.role != "team_lead" then .error .forbidden
  else match findProject s.projects project_id with
  | none => .error .notFound
  | some project =>
    if c.scope_id != some project.team_id then .error .forbidden
    else
      let quotas1 :=
        if project.quota_cpu != 0 && project.site != "" then
          updateFirst (fun q => q.team_id == project.team_id && q.site == project.site)
            (fun q => { q with
              cpu_used := max 0 (q.cpu_used - project.quota_cpu),
              ram_gb_used := max 0 (q.ram_gb_used - project.quota_ram_gb) })
            s.teamQuotas
        else s.teamQuotas
      .ok { s with
            teamQuotas := quotas1,
            projects := updateFirst (fun p => p.id == project_id)
              (fun p => { p with status := "deleting" }) s.projects }

-- ── AdminService.delete_team (app/services/admin_service.py) ──────────────

/-- Modelled from the spec: `AllocationRepository.team_has_projects` is
called by `AdminService.delete_team` but its definition is absent from the
sources. Per the spec scenario "delete Team with zero Projects → succeeds;
delete Team with one active Project → `Conflict` ('active projects')" and
the service's error message, a team blocks deletion exactly when at least
one of its projects is still active. -/
def team_has_projects (projects : List Project) (team_id : String) : Bool :=
  projects.any (fun p => p.team_id == team_id && p.status == "active")

/-- `AdminService.delete_team`: super-admin gate, team existence check,
active-project cascade block, then row deletion. -/
def delete_team (s : St) (c : Claims) (team_id : String) : Except Err St :=
  if !is_super_admin c then .error .forbidden
  else match findTeam s.teams team_id with
  | none => .error .notFound
  | some _ =>
    if team_has_projects s.projects team_id then .error .conflict
    else .ok { s with teams := removeFirst (fun t => t.id == team_id) s.teams }

-- ── Allocation tree (AllocationService.get_allocation_tree) ───────────────

/-- Tree leaf: one team quota (schema `TeamQuotaNode`). -/
structure TeamQuotaNode where
  team_id : String
  team_name : String
  site : String
  cpu_limit : Int
  ram_gb_limit : Int
  cpu_used : Int
  ram_gb_used : Int
deriving Repr, DecidableEq

/-- Tree node: one department quota with its team quotas. -/
structure DeptQuotaNode where
  dept_id : String
  dept_name : String
  site : String
  cpu_limit : Int
  ram_gb_limit : Int
  cpu_used : Int
  ram_gb_used : Int
  teams : List TeamQuotaNode
deriving Repr, DecidableEq

/-- Tree node: one field with its server capacity and department quotas. -/
structure FieldNode where
  field_id : String
  field_name : String
  site : String
  total_cpu : Int
  total_ram_gb : Int
  departments : List DeptQuotaNode
deriving Repr, DecidableEq

/-- Tree root entry: one center. -/
structure CenterNode where
  center_id : String
  center_name : String
  fields : List FieldNode
deriving Repr, DecidableEq

/-- `get_servers_for_field`: servers joined through their allocation rows. -/
def serversForField (s : St) (field_id : String) : List Server :=
  (s.serverAllocs.filter (fun a => a.field_id == field_id)).filterMap
    (fun a => findServer s.servers a.server_id)

/-- Inner loop over the department's team quotas: `get_team` (NotFound on a
dangling id), then the `team_lead` scope filter, then the node. -/
def buildTeamNodes (s : St) (c : Claims) : List TeamQuota → Except Err (List TeamQuotaNode)
  | [] => .ok []
  | tq :: rest =>
    match findTeam s.teams tq.team_id with
    | none => .error .notFound
    | some team =>
      match buildTeamNodes s c rest with
      | .error e => .error e
      | .ok restNodes =>
        if c.role == "team_lead" && c.scope_id != some tq.team_id then .ok restNodes
        else .ok (⟨tq.team_id, team.name, tq.site, tq.cpu_limit, tq.ram_gb_limit,
                   tq.cpu_used, tq.ram_gb_used⟩ :: restNodes)

/-- Middle loop over the field's department quotas: `get_dept`, the
`dept_admin` scope filter, then the team sub-loop. -/
def buildDeptNodes (s : St) (c : Claims) : List DeptQuota → Except Err (List DeptQuotaNode)
  | [] => .ok []
  | dq :: rest =>
    match findDept s.depts dq.department_id with
    | none => .error .notFound
    | some dept =>
      if c.role == "dept_admin" && c.scope_id != some dq.department_id then
        buildDeptNodes s c rest
      else
        match buildTeamNodes s c
            (s.teamQuotas.filter (fun q => q.department_id == dq.department_id)) with
        | .error e => .error e
        | .ok teamNodes =>
          match buildDeptNodes s c rest with
          | .error e => .error e
          | .ok restNodes =>
            .ok (⟨dq.department_id, dept.name, dq.site, dq.cpu_limit, dq.ram_gb_limit,
                  dq.cpu_used, dq.ram_gb_used, teamNodes⟩ :: restNodes)

/-- Loop over a center's fields: the `field_admin` scope filter, server
capacity totals, then the department sub-loop. -/
def buildFieldNodes (s : St) (c : Claims) : List FieldRow → Except Err (List FieldNode)
  | [] => .ok []
  | f :: rest =>
    if c.role == "field_admin" && c.scope_id != some f.id then
      buildFieldNodes s c rest
    else
      let servers := serversForField s f.id
      match buildDeptNodes s c (s.deptQuotas.filter (fun q => q.field_id == f.id)) with
      | .error e => .error e
      | .ok deptNodes =>
        match buildFieldNodes s c rest with
        | .error e => .error e
        | .ok restNodes =>
          .ok (⟨f.id, f.name, f.site, sumBy (fun sv => sv.cpu) servers,
                sumBy (fun sv => sv.ram_gb) servers, deptNodes⟩ :: restNodes)

/-- Outer loop over every center: a center is kept when it has visible
fields, or unconditionally for a `center_admin`. -/
def buildCenterNodes (s : St) (c : Claims) : List Center → Except Err (List CenterNode)
  | [] => .ok []
  | ctr :: rest =>
    match buildFieldNodes s c (s.fields.filter (fun f => f.center_id == ctr.id)) with
    | .error e => .error e
    | .ok fieldNodes =>
      match buildCenterNodes s c rest with
      | .error e => .error e
      | .ok restNodes =>
        if fieldNodes != [] || c.role == "center_admin" then
          .ok (⟨ctr.id, ctr.name, fieldNodes⟩ :: restNodes)
        else .ok restNodes

/-- `AllocationService.get_allocation_tree`. -/
def get_allocation_tree (s : St) (c : Claims) : Except Err (List CenterNode) :=
  buildCenterNodes s c s.centers

-- ── Quota-operation step relation (for the global invariant) ──────────────

/-- One quota operation of the allocation engine, in the sense of the
spec's invariant property: quota creates/updates at both levels, the debit
inside `create_project`, the credit inside `delete_project`, and the
provisioning-failure rollback. -/
inductive QuotaOp where
  | createDept (c : Claims) (field_id dept_id site : String)
      (cpu_limit ram_gb_limit : Int) (newId : String)
  | updateDept (c : Claims) (quota_id : String) (cpu_limit ram_gb_limit : Int)
  | createTeam (c : Claims) (dept_id team_id site : String)
      (cpu_limit ram_gb_limit : Int) (newId : String)
  | updateTeam (c : Claims) (quota_id : String) (cpu_limit ram_gb_limit : Int)
  | createProj (c : Claims) (name site sla_type performance_tier newId : String)
  | deleteProj (c : Claims) (project_id : String)
  | rollback (project_id : String)
deriving Repr

/-- Execute one quota operation; a failed operation aborts its transaction
and leaves the state unchanged. -/
def applyOp (s : St) : QuotaOp → St
  | .createDept c fid did site cl rl nid =>
    match create_dept_quota s c fid did site cl rl nid with
    | .ok s' => s'
    | .error _ => s
  | .updateDept c qid cl rl =>
    match update_dept_quota s c qid cl rl with
    | .ok s' => s'
    | .error _ => s
  | .createTeam c did tid site cl rl nid =>
    match create_team_quota s c did tid site cl rl nid with
    | .ok s' => s'
    | .error _ => s
  | .updateTeam c qid cl rl =>
    match update_team_quota s c qid cl rl with
    | .ok s' => s'
    | .error _ => s
  | .createProj c name site sla perf nid =>
    match create_project s c name site sla perf nid with
    | .ok (_, s') => s'
    | .error _ => s
  | .deleteProj c pid =>
    match delete_project s c pid with
    | .ok s' => s'
    | .error _ => s
  | .rollback pid => rollback_quota_and_fail s pid

/-- Requested limits are non-negative (the data model declares all quota
amounts as non-negative integers). -/
def OpArgsNonneg : QuotaOp → Prop
  | .createDept _ _ _ _ cl rl _ => 0 ≤ cl ∧ 0 ≤ rl
  | .updateDept _ _ cl rl => 0 ≤ cl ∧ 0 ≤ rl
  | .createTeam _ _ _ _ cl rl _ => 0 ≤ cl ∧ 0 ≤ rl
  | .updateTeam _ _ cl rl => 0 ≤ cl ∧ 0 ≤ rl
  | .createProj _ _ _ _ _ _ => True
  | .deleteProj _ _ => True
  | .rollback _ => True

-- ── Invariants ────────────────────────────────────────────────────────────

/-- The spec's invariant, as claimed: `used ≤ limit` on every quota row,
and the children's limit-sum never exceeds the parent's capacity — at the
field level the capacity is the site's assigned-server total, at the
department level it is the department quota's own limits. -/
def ClaimInv (s : St) : Prop :=
  (∀ q ∈ s.deptQuotas, q.cpu_used ≤ q.cpu_limit ∧ q.ram_gb_used ≤ q.ram_gb_limit) ∧
  (∀ q ∈ s.teamQuotas, q.cpu_used ≤ q.cpu_limit ∧ q.ram_gb_used ≤ q.ram_gb_limit) ∧
  (∀ fid site : String,
    deptCpuLimitSum s.deptQuotas fid site ≤
      fieldTotalCpu s.fields s.servers s.serverAllocs fid site ∧
    deptRamLimitSum s.deptQuotas fid site ≤
      fieldTotalRam s.fields s.servers s.serverAllocs fid site) ∧
  (∀ dq ∈ s.deptQuotas,
    teamCpuLimitSum s.teamQuotas dq.department_id dq.site ≤ dq.cpu_limit ∧
    teamRamLimitSum s.teamQuotas dq.department_id dq.site ≤ dq.ram_gb_limit)

/-- The part of the invariant the quota operations actually preserve:
`0 ≤ used ≤ limit` on every quota row, non-negative project reservations,
and the field-level children bound. The department-level children bound of
`ClaimInv` is excluded: it is not preserved (see the counterexample). -/
def Inv (s : St) : Prop :=
  (∀ q ∈ s.deptQuotas,
    0 ≤ q.cpu_used ∧ q.cpu_used ≤ q.cpu_limit ∧
    0 ≤ q.ram_gb_used ∧ q.ram_gb_used ≤ q.ram_gb_limit) ∧
  (∀ q ∈ s.teamQuotas,
    0 ≤ q.cpu_used ∧ q.cpu_used ≤ q.cpu_limit ∧
    0 ≤ q.ram_gb_used ∧ q.ram_gb_used ≤ q.ram_gb_limit) ∧
  (∀ p ∈ s.projects, 0 ≤ p.quota_cpu ∧ 0 ≤ p.quota_ram_gb) ∧
  (∀ fid site : String,
    deptCpuLimitSum s.deptQuotas fid site ≤
      fieldTotalCpu s.fields s.servers s.serverAllocs fid site ∧
    deptRamLimitSum s.deptQuotas fid site ≤
      fieldTotalRam s.fields s.servers s.serverAllocs fid site)

-- ── Concrete instances used by refutations and witnesses ──────────────────

/-- A field admin scoped to field `f1`. -/
def f1Admin : Claims := ⟨"admin", "field_admin", some "f1"⟩

/-- A department admin scoped to department `d1`. -/
def d1Admin : Claims := ⟨"dadmin", "dept_admin", some "d1"⟩

/-- A team lead scoped to team `t1`. -/
def t1Lead : Claims := ⟨"lead", "team_lead", some "t1"⟩

/-- A center admin (super-admin role; scope irrelevant). -/
def centerAdmin : Claims := ⟨"cadmin", "center_admin", none⟩

/-- A platform admin (super-admin role; no scope). -/
def platformAdmin : Claims := ⟨"padmin", "platform_admin", none⟩

/-- A small populated state: one center, one field `f1` at `site-a` with a
100/100 server assigned, a department quota 50/50 under it, and a team
quota 40/40 under that. -/
def demoSt : St :=
  ⟨[⟨"c1", "center-one"⟩],
   [⟨"f1", "c1", "field-one", "site-a"⟩],
   [⟨"d1", "f1", "dept-one"⟩],
   [⟨"t1", "d1", "team-one"⟩],
   [⟨"sv1", 100, 100⟩],
   [⟨"a1", "sv1", "f1", "cadmin"⟩],
   [⟨"dq1", "f1", "d1", "site-a", 50, 50, 0, 0⟩],
   [⟨"tq1", "d1", "t1", "site-a", 40, 40, 0, 0⟩],
   []⟩

/-- `demoSt` after `update_dept_quota` shrinks the department limits to
10/10 — below the 40/40 team-quota children sum. -/
def demoStShrunk : St :=
  { demoSt with deptQuotas := [⟨"dq1", "f1", "d1", "site-a", 10, 10, 0, 0⟩] }

/-- The empty database. -/
def emptySt : St := ⟨[], [], [], [], [], [], [], [], []⟩

/-- A state for exercising the rollback: one team quota 20/20 with 5/5
already in use. -/
def preRollSt : St :=
  { emptySt with
    teams := [⟨"t1", "d1", "team-one"⟩],
    teamQuotas := [⟨"tq1", "d1", "t1", "site-a", 20, 20, 5, 5⟩] }

/-- `preRollSt` after `create_project` debits a bronze/regular project
`p1` (2 CPU / 4 GB): `used` becomes 7/9. -/
def postDebitSt : St :=
  match create_project preRollSt t1Lead "proj" "site-a" "bronze" "regular" "p1" with
  | .ok (_, s) => s
  | .error _ => preRollSt

/-- The project row `create_project` inserts for a bronze/regular project
named `proj` of team `t1` at `site-a` with fresh id `p1`. -/
def demoProject : Project :=
  ⟨"p1", "t1", "proj", "site-a", "bronze", "regular", "t1-proj", 2, 4, "provisioning"⟩

/-- The spec scenario state for project creation: a team quota for
`(t1, site-a)` with `cpu_limit = 20`, `cpu_used = 0`. -/
def scenarioSt : St :=
  { emptySt with
    teams := [⟨"t1", "d1", "team-one"⟩],
    teamQuotas := [⟨"tq1", "d1", "t1", "site-a", 20, 100, 0, 0⟩] }

/-- A state for exercising the swap: two fields and one server allocated
to `f1`. -/
def swapSt : St :=
  { emptySt with
    fields := [⟨"f1", "c1", "field-one", "site-a"⟩, ⟨"f2", "c1", "field-two", "site-a"⟩],
    servers := [⟨"sv1", 100, 100⟩],
    serverAllocs := [⟨"a1", "sv1", "f1", "cadmin"⟩] }

/-- A department quota with zero CPU used but nonzero RAM used. -/
def ramOnlyQuota : DeptQuota := ⟨"dq1", "f1", "d1", "site-a", 50, 50, 0, 3⟩

/-- A state where field `f1` has one server allocation and one department
quota whose usage is nonzero only in the RAM dimension. -/
def ramOnlySt : St :=
  { emptySt with
    fields := [⟨"f1", "c1", "field-one", "site-a"⟩],
    serverAllocs := [⟨"a1", "sv1", "f1", "cadmin"⟩],
    deptQuotas := [ramOnlyQuota] }

/-- A team quota for `(t1, site-a)` under department `d1` with no
department quota row anywhere. -/
def noParentSt : St :=
  { emptySt with teamQuotas := [⟨"tq1", "d1", "t1", "site-a", 8, 8, 1, 1⟩] }

/-- A state with a single team and no projects. -/
def teamOnlySt : St := { emptySt with teams := [⟨"t1", "d1", "team-one"⟩] }

/-- `teamOnlySt` plus one active project of that team. -/
def activeProjSt : St :=
  { teamOnlySt with
    projects := [⟨"p1", "t1", "proj", "site-a", "bronze", "regular", "t1-proj",
      2, 4, "active"⟩] }

/-- A state holding a project already in status `failed` (reservation
2/4) and its team quota with `used = (5, 5)`. -/
def failedProjSt : St :=
  { emptySt with
    teamQuotas := [⟨"tq1", "d1", "t1", "site-a", 20, 20, 5, 5⟩],
    projects := [⟨"p1", "t1", "proj", "site-a", "bronze", "regular", "t1-proj",
      2, 4, "failed"⟩] }

/-- The allocation tree `demoSt` yields for the field admin scoped to
`f1` (identical for the team lead scoped to `t1`). -/
def demoTree : List CenterNode :=
  [⟨"c1", "center-one",
    [⟨"f1", "field-one", "site-a", 100, 100,
      [⟨"d1", "dept-one", "site-a", 50, 50, 0, 0,
        [⟨"t1", "team-one", "site-a", 40, 40, 0, 0⟩]⟩]⟩]⟩]

-- ── List helper lemmas ────────────────────────────────────────────────────

theorem sumBy_append (g : α → Int) (l1 l2 : List α) :
    sumBy g (l1 ++ l2) = sumBy g l1 + sumBy g l2 := by
  induction l1 with
  | nil => simp [sumBy]
  | cons a l ih => simp [sumBy, ih]; ring

theorem mem_updateFirst {l : List α} {p : α → Bool} {f : α → α} {a : α}
    (h : a ∈ updateFirst p f l) : a ∈ l ∨ ∃ b, b ∈ l ∧ p b = true ∧ a = f b := by
  induction l with
  | nil => simp [updateFirst] at h
  | cons x l ih =>
    simp only [updateFirst] at h
    by_cases hp : p x
    · simp [hp] at h
      rcases h with h | h
      · exact Or.inr ⟨x, List.mem_cons_self x l, hp, h⟩
      · exact Or.inl (List.mem_cons_of_mem x h)
    · simp [hp] at h
      rcases h with h | h
      · exact Or.inl (h ▸ List.mem_cons_self x l)
      · rcases ih h with h' | ⟨b, hb, hpb, hab⟩
        · exact Or.inl (List.mem_cons_of_mem x h')
        · exact Or.inr ⟨b, List.mem_cons_of_mem x hb, hpb, hab⟩

theorem mem_updateFirst_of_find? {l : List α} {p : α → Bool} {f : α → α} {a b : α}
    (hfind : l.find? p = some b) (h : a ∈ updateFirst p f l) : a ∈ l ∨ a = f b := by
  induction l with
  | nil => simp [updateFirst] at h
  | cons x l ih =>
    by_cases hp : p x = true
    · rw [List.find?_cons_of_pos _ hp] at hfind
      injection hfind with hfind
      subst hfind
      simp only [updateFirst, if_pos hp] at h
      rcases List.mem_cons.1 h with h | h
      · exact Or.inr h
      · exact Or.inl (List.mem_cons_of_mem x h)
    · rw [List.find?_cons_of_neg _ hp] at hfind
      simp only [updateFirst, if_neg hp] at h
      rcases List.mem_cons.1 h with h | h
      · exact Or.inl (h ▸ List.mem_cons_self x l)
      · rcases ih hfind h with h' | h'
        · exact Or.inl (List.mem_cons_of_mem x h')
        · exact Or.inr h'

theorem sumBy_updateFirst (g : α → Int) {l : List α} {p : α → Bool} {f : α → α} {b : α}
    (h : l.find? p = some b) :
    sumBy g (updateFirst p f l) = sumBy g l - g b + g (f b) := by
  induction l with
  | nil => simp [List.find?] at h
  | cons x l ih =>
    by_cases hp : p x
    · rw [List.find?_cons_of_pos _ hp] at h
      injection h with h; subst h
      simp [updateFirst, hp, sumBy]; ring
    · rw [List.find?_cons_of_neg _ hp] at h
      simp [updateFirst, hp, sumBy, ih h]; ring

theorem updateFirst_of_find?_none {l : List α} {p : α → Bool} {f : α → α}
    (h : l.find? p = none) : updateFirst p f l = l := by
  induction l with
  | nil => rfl
  | cons x l ih =>
    rw [List.find?_cons] at h
    split at h
    · exact absurd h (by simp)
    · simp only [updateFirst]
      rename_i hp
      rw [if_neg (by simp [hp]), ih h]

theorem updateFirst_fixed {l : List α} {p : α → Bool} {f : α → α}
    (hfix : ∀ b, l.find? p = some b → f b = b) : updateFirst p f l = l := by
  induction l with
  | nil => rfl
  | cons x l ih =>
    simp only [updateFirst]
    by_cases hp : p x = true
    · rw [if_pos hp, hfix x (by rw [List.find?_cons_of_pos _ hp])]
    · rw [if_neg hp,
        ih (fun b hb => hfix b (by rw [List.find?_cons_of_neg _ hp]; exact hb))]

theorem find?_updateFirst {l : List α} {p : α → Bool} {f : α → α}
    (hf : ∀ a, p (f a) = p a) :
    (updateFirst p f l).find? p = (l.find? p).map f := by
  induction l with
  | nil => rfl
  | cons x l ih =>
    simp only [updateFirst]
    by_cases hp : p x = true
    · rw [if_pos hp, List.find?_cons_of_pos _ hp,
        List.find?_cons_of_pos _ (show p (f x) = true by rw [hf x]; exact hp)]
      rfl
    · rw [if_neg hp, List.find?_cons_of_neg _ hp, List.find?_cons_of_neg _ hp, ih]

theorem updateFirst_comp {l : List α} {p : α → Bool} {f g : α → α}
    (hf : ∀ a, p (f a) = p a) :
    updateFirst p g (updateFirst p f l) = updateFirst p (fun a => g (f a)) l := by
  induction l with
  | nil => rfl
  | cons x l ih =>
    simp only [updateFirst]
    by_cases hp : p x = true
    · rw [if_pos hp]
      simp only [updateFirst]
      rw [if_pos (show p (f x) = true by rw [hf x]; exact hp), if_pos hp]
    · rw [if_neg hp]
      simp only [updateFirst]
      rw [if_neg hp, ih, if_neg hp]

theorem sumBy_singleton (g : α → Int) (a : α) : sumBy g [a] = g a := by
  simp [sumBy]

theorem deptCpuLimitSum_append (l1 l2 : List DeptQuota) (fid site : String) :
    deptCpuLimitSum (l1 ++ l2) fid site =
      deptCpuLimitSum l1 fid site + deptCpuLimitSum l2 fid site :=
  sumBy_append _ l1 l2

theorem deptRamLimitSum_append (l1 l2 : List DeptQuota) (fid site : String) :
    deptRamLimitSum (l1 ++ l2) fid site =
      deptRamLimitSum l1 fid site + deptRamLimitSum l2 fid site :=
  sumBy_append _ l1 l2

theorem deptCpuLimitSum_singleton (q : DeptQuota) (fid site : String) :
    deptCpuLimitSum [q] fid site =
      if q.field_id == fid && q.site == site then q.cpu_limit else 0 := by
  simp [deptCpuLimitSum, sumBy]

theorem deptRamLimitSum_singleton (q : DeptQuota) (fid site : String) :
    deptRamLimitSum [q] fid site =
      if q.field_id == fid && q.site == site then q.ram_gb_limit else 0 := by
  simp [deptRamLimitSum, sumBy]

-- ── Preservation of `Inv` by each quota operation ─────────────────────────

theorem create_dept_quota_inv {s s' : St} {c : Claims} {fid did site nid : String}
    {cl rl : Int} (h : create_dept_quota s c fid did site cl rl nid = .ok s')
    (hcl : 0 ≤ cl) (hrl : 0 ≤ rl) (hinv : Inv s) : Inv s' := by
  obtain ⟨hD, hT, hP, hS⟩ := hinv
  unfold create_dept_quota at h
  split at h
  · simp at h
  split at h
  · simp at h
  dsimp only at h
  split at h
  · simp at h
  split at h
  · simp at h
  rename_i hcpu hram
  simp only [Except.ok.injEq] at h
  subst h
  push_neg at hcpu hram
  refine ⟨?_, hT, hP, ?_⟩
  · intro q hq
    rcases List.mem_append.1 hq with hq | hq
    · exact hD q hq
    · simp at hq
      subst hq
      exact ⟨le_refl 0, hcl, le_refl 0, hrl⟩
  · intro fid' site'
    have hcap := hS fid' site'
    dsimp only
    constructor
    · rw [deptCpuLimitSum_append, deptCpuLimitSum_singleton]
      by_cases hm : (fid == fid' && site == site') = true
      · obtain ⟨e1, e2⟩ : fid = fid' ∧ site = site' := by simpa using hm
        subst e1; subst e2
        simp only [hm, if_pos]
        linarith [hcpu]
      · rw [if_neg (by simpa using hm)]
        linarith [hcap.1]
    · rw [deptRamLimitSum_append, deptRamLimitSum_singleton]
      by_cases hm : (fid == fid' && site == site') = true
      · obtain ⟨e1, e2⟩ : fid = fid' ∧ site = site' := by simpa using hm
        subst e1; subst e2
        simp only [hm, if_pos]
        linarith [hram]
      · rw [if_neg (by simpa using hm)]
        linarith [hcap.2]

theorem update_dept_quota_inv {s s' : St} {c : Claims} {qid : String}
    {cl rl : Int} (h : update_dept_quota s c qid cl rl = .ok s')
    (hcl : 0 ≤ cl) (hrl : 0 ≤ rl) (hinv : Inv s) : Inv s' := by
  obtain ⟨hD, hT, hP, hS⟩ := hinv
  unfold update_dept_quota at h
  split at h
  · simp at h
  rename_i quota hfind
  split at h
  · simp at h
  split at h
  · simp at h
  split at h
  · simp at h
  rename_i hcl2 hrl2
  dsimp only at h
  split at h
  · simp at h
  split at h
  · simp at h
  rename_i hcpu hram
  simp only [Except.ok.injEq] at h
  subst h
  push_neg at hcl2 hrl2 hcpu hram
  have hmem := List.mem_of_find?_eq_some hfind
  refine ⟨?_, hT, hP, ?_⟩
  · intro q hq
    rcases mem_updateFirst_of_find? hfind hq with hq | hq
    · exact hD q hq
    · subst hq
      exact ⟨(hD quota hmem).1, hcl2, (hD quota hmem).2.2.1, hrl2⟩
  · intro fid' site'
    have hcap := hS fid' site'
    dsimp only
    constructor
    · rw [deptCpuLimitSum, sumBy_updateFirst _ hfind]
      rw [show deptCpuLimitSum s.deptQuotas fid' site' =
        sumBy (fun q => if q.field_id == fid' && q.site == site' then q.cpu_limit else 0)
          s.deptQuotas from rfl] at hcap
      by_cases hm : (quota.field_id == fid' && quota.site == site') = true
      · obtain ⟨e1, e2⟩ : quota.field_id = fid' ∧ quota.site = site' := by simpa using hm
        subst e1; subst e2
        simp only [hm, if_pos]
        rw [show deptCpuLimitSum s.deptQuotas quota.field_id quota.site =
          sumBy (fun q => if q.field_id == quota.field_id && q.site == quota.site then
            q.cpu_limit else 0) s.deptQuotas from rfl] at hcpu
        linarith [hcpu]
      · simp only [if_neg hm]
        linarith [hcap.1]
    · rw [deptRamLimitSum, sumBy_updateFirst _ hfind]
      rw [show deptRamLimitSum s.deptQuotas fid' site' =
        sumBy (fun q => if q.field_id == fid' && q.site == site' then q.ram_gb_limit else 0)
          s.deptQuotas from rfl] at hcap
      by_cases hm : (quota.field_id == fid' && quota.site == site') = true
      · obtain ⟨e1, e2⟩ : quota.field_id = fid' ∧ quota.site = site' := by simpa using hm
        subst e1; subst e2
        simp only [hm, if_pos]
        rw [show deptRamLimitSum s.deptQuotas quota.field_id quota.site =
          sumBy (fun q => if q.field_id == quota.field_id && q.site == quota.site then
            q.ram_gb_limit else 0) s.deptQuotas from rfl] at hram
        linarith [hram]
      · simp only [if_neg hm]
        linarith [hcap.2]

theorem slaQuota_pos {sla perf : String} {a b : Int}
    (h : slaQuota sla perf = some (a, b)) : 0 < a ∧ 0 < b := by
  unfold slaQuota at h
  split_ifs at h <;> simp_all <;> omega

theorem create_team_quota_inv {s s' : St} {c : Claims} {did tid site nid : String}
    {cl rl : Int} (h : create_team_quota s c did tid site cl rl nid = .ok s')
    (hcl : 0 ≤ cl) (hrl : 0 ≤ rl) (hinv : Inv s) : Inv s' := by
  obtain ⟨hD, hT, hP, hS⟩ := hinv
  unfold create_team_quota at h
  split at h
  · simp at h
  split at h
  · simp at h
  split at h
  · simp at h
  dsimp only at h
  split at h
  · simp at h
  split at h
  · simp at h
  simp only [Except.ok.injEq] at h
  subst h
  refine ⟨hD, ?_, hP, hS⟩
  intro q hq
  rcases List.mem_append.1 hq with hq | hq
  · exact hT q hq
  · simp at hq
    subst hq
    exact ⟨le_refl 0, hcl, le_refl 0, hrl⟩

theorem update_team_quota_inv {s s' : St} {c : Claims} {qid : String}
    {cl rl : Int} (h : update_team_quota s c qid cl rl = .ok s')
    (hcl : 0 ≤ cl) (hrl : 0 ≤ rl) (hinv : Inv s) : Inv s' := by
  obtain ⟨hD, hT, hP, hS⟩ := hinv
  unfold update_team_quota at h
  split at h
  · simp at h
  rename_i quota hfind
  split at h
  · simp at h
  split at h
  · simp at h
  split at h
  · simp at h
  rename_i hcl2 hrl2
  push_neg at hcl2 hrl2
  have hmem := List.mem_of_find?_eq_some hfind
  have core : ∀ q ∈ updateFirst (fun q => q.id == qid)
      (fun q => { q with cpu_limit := cl, ram_gb_limit := rl }) s.teamQuotas,
      0 ≤ q.cpu_used ∧ q.cpu_used ≤ q.cpu_limit ∧
      0 ≤ q.ram_gb_used ∧ q.ram_gb_used ≤ q.ram_gb_limit := by
    intro q hq
    rcases mem_updateFirst_of_find? hfind hq with hq | hq
    · exact hT q hq
    · subst hq
      exact ⟨(hT quota hmem).1, hcl2, (hT quota hmem).2.2.1, hrl2⟩
  dsimp only at h
  split at h
  · simp only [Except.ok.injEq] at h
    subst h
    exact ⟨hD, core, hP, hS⟩
  split at h
  · simp at h
  split at h
  · simp at h
  simp only [Except.ok.injEq] at h
  subst h
  exact ⟨hD, core, hP, hS⟩

theorem create_project_inv {s s' : St} {c : Claims} {name site sla perf nid : String}
    {pr : Project} (h : create_project s c name site sla perf nid = .ok (pr, s'))
    (hinv : Inv s) : Inv s' := by
  obtain ⟨hD, hT, hP, hS⟩ := hinv
  unfold create_project at h
  split at h
  · simp at h
  split at h
  · simp at h
  rename_i pair rc rr hsla
  split at h
  · simp at h
  rename_i tid
  split at h
  · simp at h
  rename_i quota hfind
  split at h
  · simp at h
  split at h
  · simp at h
  rename_i hcpu hram
  simp only [Except.ok.injEq, Prod.mk.injEq] at h
  obtain ⟨hpr, h⟩ := h
  subst h
  push_neg at hcpu hram
  have hpos := slaQuota_pos hsla
  have hmem := List.mem_of_find?_eq_some hfind
  refine ⟨hD, ?_, ?_, hS⟩
  · intro q hq
    rcases mem_updateFirst_of_find? hfind hq with hq | hq
    · exact hT q hq
    · subst hq
      refine ⟨?_, hcpu, ?_, hram⟩
      · show (0 : Int) ≤ quota.cpu_used + rc
        linarith [(hT quota hmem).1, hpos.1]
      · show (0 : Int) ≤ quota.ram_gb_used + rr
        linarith [(hT quota hmem).2.2.1, hpos.2]
  · intro p hp
    rcases List.mem_append.1 hp with hp | hp
    · exact hP p hp
    · simp at hp
      subst hp
      exact ⟨le_of_lt hpos.1, le_of_lt hpos.2⟩

theorem delete_project_inv {s s' : St} {c : Claims} {pid : String}
    (h : delete_project s c pid = .ok s') (hinv : Inv s) : Inv s' := by
  obtain ⟨hD, hT, hP, hS⟩ := hinv
  unfold delete_project at h
  split at h
  · simp at h
  split at h
  · simp at h
  rename_i project hfind
  split at h
  · simp at h
  have hpmem := List.mem_of_find?_eq_some hfind
  have hpq := hP project hpmem
  dsimp only at h
  simp only [Except.ok.injEq] at h
  subst h
  refine ⟨hD, ?_, ?_, hS⟩
  · intro q hq
    dsimp only at hq
    split at hq
    · cases hfq : s.teamQuotas.find?
        (fun q => q.team_id == project.team_id && q.site == project.site) with
      | none =>
        rw [updateFirst_of_find?_none hfq] at hq
        exact hT q hq
      | some b =>
        rcases mem_updateFirst_of_find? hfq hq with hq' | hq'
        · exact hT q hq'
        · subst hq'
          have hb := hT b (List.mem_of_find?_eq_some hfq)
          refine ⟨le_max_left _ _, max_le ?_ ?_, le_max_left _ _, max_le ?_ ?_⟩
          · linarith [hb.1, hb.2.1]
          · linarith [hb.2.1, hpq.1]
          · linarith [hb.2.2.1, hb.2.2.2]
          · linarith [hb.2.2.2, hpq.2]
    · exact hT q hq
  · intro p hp
    rcases mem_updateFirst_of_find? hfind hp with hp' | hp'
    · exact hP p hp'
    · subst hp'
      exact hpq

theorem rollback_quota_and_fail_inv {s : St} {pid : String} (hinv : Inv s) :
    Inv (rollback_quota_and_fail s pid) := by
  obtain ⟨hD, hT, hP, hS⟩ := hinv
  unfold rollback_quota_and_fail
  split
  · exact ⟨hD, hT, hP, hS⟩
  rename_i project hfind
  have hpq := hP project (List.mem_of_find?_eq_some hfind)
  have hprojects : ∀ p ∈ updateFirst (fun p => p.id == pid)
      (fun p => { p with status := "failed" }) s.projects,
      0 ≤ p.quota_cpu ∧ 0 ≤ p.quota_ram_gb := by
    intro p hp
    rcases mem_updateFirst_of_find? hfind hp with hp' | hp'
    · exact hP p hp'
    · subst hp'
      exact hpq
  dsimp only
  split
  · refine ⟨hD, ?_, hprojects, hS⟩
    intro q hq
    dsimp only at hq
    cases hfq : s.teamQuotas.find?
        (fun q => q.team_id == project.team_id && q.site == project.site) with
    | none =>
      rw [updateFirst_of_find?_none hfq] at hq
      exact hT q hq
    | some b =>
      rcases mem_updateFirst_of_find? hfq hq with hq' | hq'
      · exact hT q hq'
      · subst hq'
        have hb := hT b (List.mem_of_find?_eq_some hfq)
        refine ⟨le_max_left _ _, max_le ?_ ?_, le_max_left _ _, max_le ?_ ?_⟩
        · linarith [hb.1, hb.2.1]
        · linarith [hb.2.1, hpq.1]
        · linarith [hb.2.2.1, hb.2.2.2]
        · linarith [hb.2.2.2, hpq.2]
  · exact ⟨hD, hT, hprojects, hS⟩

/-- A single quota operation preserves the (weakened) invariant. -/
theorem applyOp_inv {s : St} {op : QuotaOp} (hargs : OpArgsNonneg op) (hinv : Inv s) :
    Inv (applyOp s op) := by
  cases op with
  | createDept c fid did site cl rl nid =>
    simp only [applyOp]
    cases h : create_dept_quota s c fid did site cl rl nid with
    | ok s' => exact create_dept_quota_inv h hargs.1 hargs.2 hinv
    | error _ => exact hinv
  | updateDept c qid cl rl =>
    simp only [applyOp]
    cases h : update_dept_quota s c qid cl rl with
    | ok s' => exact update_dept_quota_inv h hargs.1 hargs.2 hinv
    | error _ => exact hinv
  | createTeam c did tid site cl rl nid =>
    simp only [applyOp]
    cases h : create_team_quota s c did tid site cl rl nid with
    | ok s' => exact create_team_quota_inv h hargs.1 hargs.2 hinv
    | error _ => exact hinv
  | updateTeam c qid cl rl =>
    simp only [applyOp]
    cases h : update_team_quota s c qid cl rl with
    | ok s' => exact update_team_quota_inv h hargs.1 hargs.2 hinv
    | error _ => exact hinv
  | createProj c name site sla perf nid =>
    simp only [applyOp]
    cases h : create_project s c name site sla perf nid with
    | ok pair =>
      cases pair with
      | mk pr s' => exact create_project_inv h hinv
    | error _ => exact hinv
  | deleteProj c pid =>
    simp only [applyOp]
    cases h : delete_project s c pid with
    | ok s' => exact delete_project_inv h hinv
    | error _ => exact hinv
  | rollback pid =>
    simp only [applyOp]
    exact rollback_quota_and_fail_inv hinv

theorem mem_of_mem_removeFirst {l : List α} {p : α → Bool} {x : α}
    (h : x ∈ removeFirst p l) : x ∈ l := by
  induction l with
  | nil => simpa [removeFirst] using h
  | cons a l ih =>
    simp only [removeFirst] at h
    by_cases hp : p a = true
    · rw [if_pos hp] at h
      exact List.mem_cons_of_mem a h
    · rw [if_neg hp] at h
      rcases List.mem_cons.1 h with h | h
      · exact h ▸ List.mem_cons_self a l
      · exact List.mem_cons_of_mem a (ih h)

theorem not_mem_removeFirst {l : List α} {p : α → Bool} {a : α}
    (hnd : l.Nodup) (hp : p a = true)
    (huni : ∀ x ∈ l, p x = true → x = a) : a ∉ removeFirst p l := by
  induction l with
  | nil => simp [removeFirst]
  | cons x l ih =>
    simp only [removeFirst]
    by_cases hx : p x = true
    · rw [if_pos hx]
      rw [huni x (List.mem_cons_self x l) hx] at hnd
      exact (List.nodup_cons.1 hnd).1
    · rw [if_neg hx]
      intro hmem
      rcases List.mem_cons.1 hmem with h | h
      · exact hx (h ▸ hp)
      · exact ih (List.nodup_cons.1 hnd).2
          (fun y hy hpy => huni y (List.mem_cons_of_mem x hy) hpy) h

-- ── C1 ────────────────────────────────────────────────────────────────────

/-- C1 (counterexample): the claimed invariant is not preserved by every
quota operation. `demoSt` satisfies the full invariant (`used ≤ limit`
everywhere, dept limits within server capacity, team limits within dept
limits), yet `update_dept_quota` by the correctly scoped field admin
shrinks the department limits to 10/10 — below the existing 40/40 team
children sum — and succeeds, because the department quota's own
`cpu_used`/`ram_gb_used` stay 0 (team-quota creation never debits them). -/
theorem claim_invariant_not_preserved :
    ClaimInv demoSt ∧
    update_dept_quota demoSt f1Admin "dq1" 10 10 = .ok demoStShrunk ∧
    ¬ ClaimInv demoStShrunk := by
  refine ⟨⟨by decide, by decide, ?_, by decide⟩, by rfl, ?_⟩
  · intro fid site
    constructor
    · show deptCpuLimitSum demoSt.deptQuotas fid site ≤
        fieldTotalCpu demoSt.fields demoSt.servers demoSt.serverAllocs fid site
      simp only [demoSt, deptCpuLimitSum, fieldTotalCpu, sumBy, fieldSiteIs,
        findField, findServer, allocServerCpu, List.find?, beq_self_eq_true]
      split_ifs <;> norm_num
    · show deptRamLimitSum demoSt.deptQuotas fid site ≤
        fieldTotalRam demoSt.fields demoSt.servers demoSt.serverAllocs fid site
      simp only [demoSt, deptRamLimitSum, fieldTotalRam, sumBy, fieldSiteIs,
        findField, findServer, allocServerRam, List.find?, beq_self_eq_true]
      split_ifs <;> norm_num
  · intro h
    have h4 := (h.2.2.2 ⟨"dq1", "f1", "d1", "site-a", 10, 10, 0, 0⟩ (by decide)).1
    dsimp only at h4
    have h40 : teamCpuLimitSum demoStShrunk.teamQuotas "d1" "site-a" = 40 := by decide
    omega

/-- C1 (amended): every sequence of quota operations (quota creates and
updates at both levels, the `create_project` debit, the `delete_project`
credit and the provisioning-failure rollback) with non-negative requested
limits, run from a state satisfying the preserved part of the invariant —
`0 ≤ used ≤ limit` on every quota row, non-negative project reservations,
and `sum(dept limits) ≤ field server capacity` for every `(field, site)` —
ends in a state satisfying it again. The department-level children bound
is deliberately absent: the code does not preserve it
(`claim_invariant_not_preserved`). -/
theorem quota_ops_preserve_weak_invariant (ops : List QuotaOp) (s : St)
    (hargs : ∀ op ∈ ops, OpArgsNonneg op) (hinv : Inv s) :
    Inv (ops.foldl applyOp s) := by
  induction ops generalizing s with
  | nil => exact hinv
  | cons op ops ih =>
    simp only [List.foldl_cons]
    exact ih (applyOp s op) (fun o ho => hargs o (List.mem_cons_of_mem _ ho))
      (applyOp_inv (hargs op (List.mem_cons_self _ _)) hinv)

/-- Witness for C1 (amended): a concrete three-step run — create a 50/50
department quota, a 40/40 team quota, then a project debit — from the
empty database. -/
theorem quota_ops_preserve_weak_invariant_witness :
    Inv (([QuotaOp.createDept f1Admin "f1" "d1" "site-a" 50 50 "dq1",
           QuotaOp.createTeam d1Admin "d1" "t1" "site-a" 40 40 "tq1",
           QuotaOp.createProj t1Lead "proj" "site-a" "bronze" "regular" "p1"]).foldl
          applyOp emptySt) :=
  quota_ops_preserve_weak_invariant _ _
    (by
      intro op hop
      simp only [List.mem_cons, List.not_mem_nil, or_false] at hop
      rcases hop with h | h | h <;> subst h
      · exact ⟨by decide, by decide⟩
      · exact ⟨by decide, by decide⟩
      · exact trivial)
    ⟨by decide, by decide, by decide,
     fun fid site => by
       simp [emptySt, deptCpuLimitSum, deptRamLimitSum, fieldTotalCpu,
         fieldTotalRam, sumBy]⟩

-- ── C2 ────────────────────────────────────────────────────────────────────

/-- Evaluates one `rollback_quota_and_fail` call when the project exists
and both reserved amounts are truthy. -/
theorem rollback_eval {s : St} {pid : String} {pr : Project}
    (hf : findProject s.projects pid = some pr)
    (hc : (pr.quota_cpu != 0 && pr.quota_ram_gb != 0) = true) :
    rollback_quota_and_fail s pid =
      { s with
        teamQuotas :=
          updateFirst (fun q => q.team_id == pr.team_id && q.site == pr.site)
            (fun q => { q with
              cpu_used := max 0 (q.cpu_used - pr.quota_cpu),
              ram_gb_used := max 0 (q.ram_gb_used - pr.quota_ram_gb) })
            s.teamQuotas,
        projects := updateFirst (fun p => p.id == pid)
          (fun p => { p with status := "failed" }) s.projects } := by
  unfold rollback_quota_and_fail
  rw [hf]
  dsimp only
  rw [if_pos hc]

/-- C2 (counterexample): the rollback is not idempotent. From a team quota
with `used = (5, 5)`, creating a bronze/regular project debits to `(7, 9)`;
the first rollback restores `(5, 5)` exactly, but a forced second rollback
credits the reservation again, moving `used` to `(3, 1)` — the project row
keeps its `quota_cpu`/`quota_ram_gb`, so every further invocation credits
once more. -/
theorem rollback_not_idempotent :
    (rollback_quota_and_fail postDebitSt "p1").teamQuotas = preRollSt.teamQuotas ∧
    (rollback_quota_and_fail (rollback_quota_and_fail postDebitSt "p1") "p1").teamQuotas ≠
      (rollback_quota_and_fail postDebitSt "p1").teamQuotas := by
  constructor
  · decide
  · decide

/-- C2 (amended): for every project created by a successful
`create_project` debit (with a fresh project id and non-negative `used`
values on the team quotas), one `rollback_quota_and_fail` restores the
team-quota table — in particular `cpu_used`/`ram_gb_used` — exactly to its
pre-reservation state; but the rollback is NOT idempotent: a second
invocation on the same project credits the reservation once more (each
dimension floored at zero). -/
theorem rollback_restores_exactly_but_credits_again
    {s s1 : St} {c : Claims} {name site sla perf nid : String} {pr : Project}
    (h : create_project s c name site sla perf nid = .ok (pr, s1))
    (hfresh : findProject s.projects nid = none)
    (hq : ∀ q ∈ s.teamQuotas, 0 ≤ q.cpu_used ∧ 0 ≤ q.ram_gb_used) :
    (rollback_quota_and_fail s1 pr.id).teamQuotas = s.teamQuotas ∧
    (rollback_quota_and_fail (rollback_quota_and_fail s1 pr.id) pr.id).teamQuotas =
      updateFirst (fun q => q.team_id == pr.team_id && q.site == pr.site)
        (fun q => { q with
          cpu_used := max 0 (q.cpu_used - pr.quota_cpu),
          ram_gb_used := max 0 (q.ram_gb_used - pr.quota_ram_gb) })
        s.teamQuotas := by
  unfold create_project at h
  split at h
  · simp at h
  split at h
  · simp at h
  rename_i pair rc rr hsla
  split at h
  · simp at h
  rename_i team_id hscope
  split at h
  · simp at h
  rename_i quota hfind
  split at h
  · simp at h
  split at h
  · simp at h
  simp only [Except.ok.injEq, Prod.mk.injEq] at h
  obtain ⟨hpr, hs1⟩ := h
  subst hpr
  have hpos := slaQuota_pos hsla
  have hcc : (rc != 0 && rr != 0) = true := by
    rw [Bool.and_eq_true, bne_iff_ne, bne_iff_ne]
    exact ⟨hpos.1.ne', hpos.2.ne'⟩
  have hfind1 : findProject s1.projects nid =
      some ⟨nid, team_id, name, site, sla, perf, make_namespace_name team_id name,
        rc, rr, "provisioning"⟩ := by
    rw [← hs1]
    unfold findProject at hfresh ⊢
    dsimp only
    rw [List.find?_append, hfresh]
    simp [List.find?]
  have hcc1 : ((⟨nid, team_id, name, site, sla, perf, make_namespace_name team_id name,
      rc, rr, "provisioning"⟩ : Project).quota_cpu != 0 &&
      (⟨nid, team_id, name, site, sla, perf, make_namespace_name team_id name,
      rc, rr, "provisioning"⟩ : Project).quota_ram_gb != 0) = true := hcc
  have hquota0 := hq quota (List.mem_of_find?_eq_some hfind)
  have hfix : ∀ b, List.find? (fun q => q.team_id == team_id && q.site == site)
      s.teamQuotas = some b →
      (fun q => TeamQuota.mk q.id q.department_id q.team_id q.site q.cpu_limit
        q.ram_gb_limit (max 0 (q.cpu_used + rc - rc)) (max 0 (q.ram_gb_used + rr - rr))) b
        = b := by
    intro b hb
    have hb2 : findTeamQuota s.teamQuotas team_id site = some b := hb
    rw [hfind] at hb2
    injection hb2 with hb2
    subst hb2
    cases quota
    simp only at hquota0
    simp only [TeamQuota.mk.injEq, true_and]
    constructor
    · omega
    · omega
  have e1 := rollback_eval hfind1 hcc1
  have hteam1 : (rollback_quota_and_fail s1
      (⟨nid, team_id, name, site, sla, perf, make_namespace_name team_id name,
        rc, rr, "provisioning"⟩ : Project).id).teamQuotas = s.teamQuotas := by
    rw [e1]
    dsimp only
    rw [← hs1]
    dsimp only
    rw [@updateFirst_comp TeamQuota s.teamQuotas
      (fun q => q.team_id == team_id && q.site == site)
      (fun q => { q with cpu_used := q.cpu_used + rc, ram_gb_used := q.ram_gb_used + rr })
      (fun q => { q with cpu_used := max 0 (q.cpu_used - rc),
                         ram_gb_used := max 0 (q.ram_gb_used - rr) })
      (fun a => rfl)]
    exact updateFirst_fixed hfix
  refine ⟨hteam1, ?_⟩
  rw [e1]
  have hfind2 : findProject ({ s1 with
      teamQuotas :=
        updateFirst (fun q => q.team_id ==
            (⟨nid, team_id, name, site, sla, perf, make_namespace_name team_id name,
              rc, rr, "provisioning"⟩ : Project).team_id &&
          q.site == (⟨nid, team_id, name, site, sla, perf,
              make_namespace_name team_id name, rc, rr, "provisioning"⟩ : Project).site)
          (fun q => { q with
            cpu_used := max 0 (q.cpu_used -
              (⟨nid, team_id, name, site, sla, perf, make_namespace_name team_id name,
                rc, rr, "provisioning"⟩ : Project).quota_cpu),
            ram_gb_used := max 0 (q.ram_gb_used -
              (⟨nid, team_id, name, site, sla, perf, make_namespace_name team_id name,
                rc, rr, "provisioning"⟩ : Project).quota_ram_gb) })
          s1.teamQuotas,
      projects := updateFirst (fun p => p.id ==
          (⟨nid, team_id, name, site, sla, perf, make_namespace_name team_id name,
            rc, rr, "provisioning"⟩ : Project).id)
        (fun p => { p with status := "failed" }) s1.projects }).projects
      (⟨nid, team_id, name, site, sla, perf, make_namespace_name team_id name,
        rc, rr, "provisioning"⟩ : Project).id =
      some ⟨nid, team_id, name, site, sla, perf, make_namespace_name team_id name,
        rc, rr, "failed"⟩ := by
    dsimp only
    unfold findProject at hfind1 ⊢
    rw [@find?_updateFirst Project s1.projects (fun p => p.id == nid)
      (fun p => { p with status := "failed" }) (fun a => rfl), hfind1]
    rfl
  have hcc2 : ((⟨nid, team_id, name, site, sla, perf, make_namespace_name team_id name,
      rc, rr, "failed"⟩ : Project).quota_cpu != 0 &&
      (⟨nid, team_id, name, site, sla, perf, make_namespace_name team_id name,
      rc, rr, "failed"⟩ : Project).quota_ram_gb != 0) = true := hcc
  rw [rollback_eval hfind2 hcc2]
  dsimp only
  rw [← hs1]
  dsimp only
  rw [@updateFirst_comp TeamQuota s.teamQuotas
    (fun q => q.team_id == team_id && q.site == site)
    (fun q => { q with cpu_used := q.cpu_used + rc, ram_gb_used := q.ram_gb_used + rr })
    (fun q => { q with cpu_used := max 0 (q.cpu_used - rc),
                       ram_gb_used := max 0 (q.ram_gb_used - rr) })
    (fun a => rfl)]
  rw [updateFirst_fixed hfix]

/-- Witness for C2 (amended): the concrete bronze/regular creation from
`preRollSt` followed by one and then two rollbacks. -/
theorem rollback_restores_exactly_but_credits_again_witness :
    (rollback_quota_and_fail postDebitSt demoProject.id).teamQuotas =
      preRollSt.teamQuotas ∧
    (rollback_quota_and_fail (rollback_quota_and_fail postDebitSt demoProject.id)
        demoProject.id).teamQuotas =
      updateFirst (fun q => q.team_id == demoProject.team_id && q.site == demoProject.site)
        (fun q => { q with
          cpu_used := max 0 (q.cpu_used - demoProject.quota_cpu),
          ram_gb_used := max 0 (q.ram_gb_used - demoProject.quota_ram_gb) })
        preRollSt.teamQuotas :=
  rollback_restores_exactly_but_credits_again
    (show create_project preRollSt t1Lead "proj" "site-a" "bronze" "regular" "p1" =
      .ok (demoProject, postDebitSt) from rfl)
    (show findProject preRollSt.projects "p1" = none from rfl)
    (by decide)

-- ── C3 ────────────────────────────────────────────────────────────────────

/-- C3 (code bug): actors holding the super-admin capability
(`platform_admin` or `center_admin`, per `is_super_admin`) are rejected
with Forbidden by all four quota operations — the service checks
`role == "field_admin"` / `role == "dept_admin"` with an exact scope match
and never consults `is_super_admin`, contradicting `roles.py`'s own
docstring ("super-admins bypass all scoped RBAC checks in the service
layer") and the test
`test_platform_admin_can_create_dept_quota_for_any_field`. -/
theorem super_admins_rejected_by_quota_ops :
    is_super_admin platformAdmin = true ∧
    is_super_admin centerAdmin = true ∧
    create_dept_quota demoSt platformAdmin "f1" "d1" "site-b" 1 1 "dq9" =
      .error .forbidden ∧
    update_dept_quota demoSt platformAdmin "dq1" 50 50 = .error .forbidden ∧
    create_team_quota demoSt centerAdmin "d1" "t2" "site-a" 1 1 "tq9" =
      .error .forbidden ∧
    update_team_quota demoSt centerAdmin "tq1" 40 40 = .error .forbidden := by
  exact ⟨rfl, rfl, rfl, rfl, rfl, rfl⟩

-- ── C4 ────────────────────────────────────────────────────────────────────

/-- C4: `create_project` for a team lead resolves the required resources
from the static six-entry SLA × performance-tier table, fails with
QuotaExceeded when no team quota row exists for `(team, site)` or when the
debit would exceed either limit, and otherwise inserts the project with
status `provisioning` and debits the team quota by exactly the resolved
amounts. -/
theorem create_project_correct :
    (slaQuota "bronze" "regular" = some (2, 4) ∧
     slaQuota "bronze" "high_performance" = some (4, 8) ∧
     slaQuota "silver" "regular" = some (4, 16) ∧
     slaQuota "silver" "high_performance" = some (8, 32) ∧
     slaQuota "gold" "regular" = some (8, 32) ∧
     slaQuota "gold" "high_performance" = some (16, 64)) ∧
    ∀ (s : St) (c : Claims) (name site sla perf nid team_id : String) (cpu ram : Int),
      c.role = "team_lead" → c.scope_id = some team_id →
      slaQuota sla perf = some (cpu, ram) →
      (findTeamQuota s.teamQuotas team_id site = none →
        create_project s c name site sla perf nid = .error .quotaExceeded) ∧
      ∀ quota, findTeamQuota s.teamQuotas team_id site = some quota →
        ((quota.cpu_limit < quota.cpu_used + cpu ∨
          quota.ram_gb_limit < quota.ram_gb_used + ram) →
          create_project s c name site sla perf nid = .error .quotaExceeded) ∧
        (quota.cpu_used + cpu ≤ quota.cpu_limit →
         quota.ram_gb_used + ram ≤ quota.ram_gb_limit →
          create_project s c name site sla perf nid =
            .ok (⟨nid, team_id, name, site, sla, perf,
                  make_namespace_name team_id name, cpu, ram, "provisioning"⟩,
                 { s with
                   projects := s.projects ++
                     [⟨nid, team_id, name, site, sla, perf,
                       make_namespace_name team_id name, cpu, ram, "provisioning"⟩],
                   teamQuotas :=
                     updateFirst (fun q => q.team_id == team_id && q.site == site)
                       (fun q => { q with
                         cpu_used := q.cpu_used + cpu,
                         ram_gb_used := q.ram_gb_used + ram })
                       s.teamQuotas })) := by
  refine ⟨⟨rfl, rfl, rfl, rfl, rfl, rfl⟩, ?_⟩
  intro s c name site sla perf nid team_id cpu ram hrole hscope hsla
  refine ⟨?_, ?_⟩
  · intro hnone
    unfold create_project
    rw [if_neg (by simp [hrole]), hsla, hscope]
    dsimp only
    rw [hnone]
  · intro quota hquota
    refine ⟨?_, ?_⟩
    · intro hexc
      unfold create_project
      rw [if_neg (by simp [hrole]), hsla, hscope]
      dsimp only
      rw [hquota]
      dsimp only
      by_cases hc : quota.cpu_used + cpu > quota.cpu_limit
      · rw [if_pos hc]
      · rw [if_neg hc, if_pos (by omega)]
    · intro hcpu hram
      unfold create_project
      rw [if_neg (by simp [hrole]), hsla, hscope]
      dsimp only
      rw [hquota]
      dsimp only
      rw [if_neg (by omega), if_neg (by omega)]

/-- Witness for C4: the spec scenario — bronze/regular (2 CPU / 4 GB) on a
team quota with `cpu_limit = 20, cpu_used = 0` succeeds and `cpu_used`
becomes 2. -/
theorem create_project_correct_witness :
    create_project scenarioSt t1Lead "proj" "site-a" "bronze" "regular" "p1" =
      .ok (⟨"p1", "t1", "proj", "site-a", "bronze", "regular", "t1-proj",
            2, 4, "provisioning"⟩,
           { emptySt with
             teams := [⟨"t1", "d1", "team-one"⟩],
             teamQuotas := [⟨"tq1", "d1", "t1", "site-a", 20, 100, 2, 4⟩],
             projects := [⟨"p1", "t1", "proj", "site-a", "bronze", "regular",
               "t1-proj", 2, 4, "provisioning"⟩] }) :=
  ((create_project_correct.2 scenarioSt t1Lead "proj" "site-a" "bronze" "regular"
      "p1" "t1" 2 4 rfl rfl rfl).2
    ⟨"tq1", "d1", "t1", "site-a", 20, 100, 0, 0⟩ rfl).2 (by decide) (by decide)

-- ── C5 ────────────────────────────────────────────────────────────────────

/-- C5: `swap_server_between_fields` by a center admin (with both fields
present, and a well-formed allocation table: no duplicate rows, unique
primary key, at most one binding per server, and a fresh new-row id) fails
with Conflict when the server's current allocation is absent or bound to a
field other than `from_field`; on a match it succeeds, the old binding is
gone, and the server's bindings in the post-state are exactly the single
new binding to `to_field`. -/
theorem swap_server_atomic {s : St} {c : Claims}
    {server_id from_field to_field nid : String} {ff tf : FieldRow}
    (hrole : c.role = "center_admin")
    (hff : findField s.fields from_field = some ff)
    (htf : findField s.fields to_field = some tf)
    (hnd : s.serverAllocs.Nodup)
    (hkey : ∀ x ∈ s.serverAllocs, ∀ y ∈ s.serverAllocs,
      x.id = y.id ∨ x.server_id = y.server_id → x = y)
    (hfresh : ∀ x ∈ s.serverAllocs, x.id ≠ nid) :
    (findServerAlloc s.serverAllocs server_id = none →
      swap_server_between_fields s c server_id from_field to_field nid =
        .error .conflict) ∧
    ∀ a, findServerAlloc s.serverAllocs server_id = some a →
      (a.field_id ≠ from_field →
        swap_server_between_fields s c server_id from_field to_field nid =
          .error .conflict) ∧
      (a.field_id = from_field →
        swap_server_between_fields s c server_id from_field to_field nid =
          .ok { s with serverAllocs :=
                  removeFirst (fun x : FieldServerAllocation => x.id == a.id) s.serverAllocs ++
                    [⟨nid, server_id, to_field, c.sub⟩] } ∧
        (removeFirst (fun x : FieldServerAllocation => x.id == a.id) s.serverAllocs ++
            ([⟨nid, server_id, to_field, c.sub⟩] : List FieldServerAllocation)).filter
            (fun x : FieldServerAllocation => x.server_id == server_id) =
          ([⟨nid, server_id, to_field, c.sub⟩] : List FieldServerAllocation) ∧
        a ∉ removeFirst (fun x : FieldServerAllocation => x.id == a.id) s.serverAllocs ++
            [⟨nid, server_id, to_field, c.sub⟩]) := by
  constructor
  · intro hnone
    unfold swap_server_between_fields
    rw [if_neg (by simp [hrole]), hff, htf]
    dsimp only
    rw [hnone]
  · intro a ha
    have ha' : List.find? (fun x : FieldServerAllocation => x.server_id == server_id)
        s.serverAllocs = some a := ha
    have hmem : a ∈ s.serverAllocs := List.mem_of_find?_eq_some ha'
    have hpa' : a.server_id = server_id := by simpa using List.find?_some ha'
    constructor
    · intro hne
      unfold swap_server_between_fields
      rw [if_neg (by simp [hrole]), hff, htf]
      dsimp only
      rw [ha]
      dsimp only
      rw [if_pos (by rwa [bne_iff_ne])]
    · intro heq
      have hnotmem : a ∉ removeFirst (fun x : FieldServerAllocation => x.id == a.id) s.serverAllocs :=
        not_mem_removeFirst hnd (by simp)
          (fun x hx hxe => hkey x hx a hmem (Or.inl (by simpa using hxe)))
      have hclean : ∀ x ∈ removeFirst (fun x : FieldServerAllocation => x.id == a.id) s.serverAllocs,
          ¬(x.server_id == server_id) = true := by
        intro x hx hpx
        have := hkey x (mem_of_mem_removeFirst hx) a hmem
          (Or.inr (by rw [hpa']; simpa using hpx))
        exact hnotmem (this ▸ hx)
      have hnone2 : findServerAlloc
          (removeFirst (fun x : FieldServerAllocation => x.id == a.id) s.serverAllocs) server_id = none :=
        List.find?_eq_none.mpr hclean
      have hrun : swap_server_between_fields s c server_id from_field to_field nid =
          .ok { s with serverAllocs :=
                  removeFirst (fun x : FieldServerAllocation => x.id == a.id) s.serverAllocs ++
                    [⟨nid, server_id, to_field, c.sub⟩] } := by
        unfold swap_server_between_fields
        rw [if_neg (by simp [hrole]), hff, htf]
        dsimp only
        rw [ha]
        dsimp only
        rw [if_neg (by simp [heq]), hnone2]
      refine ⟨hrun, ?_, ?_⟩
      · rw [List.filter_append]
        rw [List.filter_eq_nil_iff.mpr hclean]
        simp
      · intro hmem2
        rcases List.mem_append.1 hmem2 with h | h
        · exact hnotmem h
        · simp only [List.mem_singleton] at h
          exact hfresh a hmem (by rw [h])

/-- Witness for C5: swapping `sv1` from `f1` (its current field) to `f2`
succeeds — the old binding is gone and exactly the new binding remains. -/
theorem swap_server_atomic_witness :
    swap_server_between_fields swapSt centerAdmin "sv1" "f1" "f2" "a2" =
      .ok { swapSt with serverAllocs := [⟨"a2", "sv1", "f2", "cadmin"⟩] } ∧
    ([(⟨"a2", "sv1", "f2", "cadmin"⟩ : FieldServerAllocation)]).filter
        (fun x : FieldServerAllocation => x.server_id == "sv1") =
      ([⟨"a2", "sv1", "f2", "cadmin"⟩] : List FieldServerAllocation) ∧
    (⟨"a1", "sv1", "f1", "cadmin"⟩ : FieldServerAllocation) ∉
      ([⟨"a2", "sv1", "f2", "cadmin"⟩] : List FieldServerAllocation) :=
  ((swap_server_atomic
      (show centerAdmin.role = "center_admin" from rfl)
      (show findField swapSt.fields "f1" = some ⟨"f1", "c1", "field-one", "site-a"⟩ from rfl)
      (show findField swapSt.fields "f2" = some ⟨"f2", "c1", "field-two", "site-a"⟩ from rfl)
      (by decide) (by decide) (by decide)).2
    ⟨"a1", "sv1", "f1", "cadmin"⟩
    (show findServerAlloc swapSt.serverAllocs "sv1" =
      some ⟨"a1", "sv1", "f1", "cadmin"⟩ from rfl)).2 rfl

-- ── C6 ────────────────────────────────────────────────────────────────────

/-- C6 (counterexample): a department quota with `cpu_used = 0` but
`ram_gb_used = 3` — nonzero used in the RAM dimension — does NOT block
`remove_server_from_field`: the call succeeds and deletes the allocation,
because `field_has_dept_quotas` inspects only `cpu_used > 0`. -/
theorem remove_server_ignores_ram_usage :
    ramOnlyQuota ∈ ramOnlySt.deptQuotas ∧
    ramOnlyQuota.field_id = "f1" ∧
    ramOnlyQuota.ram_gb_used ≠ 0 ∧
    remove_server_from_field ramOnlySt centerAdmin "a1" =
      .ok { ramOnlySt with serverAllocs := [] } := by
  exact ⟨by decide, rfl, by decide, rfl⟩

/-- C6 (amended): for an existing allocation, `remove_server_from_field`
by a center admin fails with Conflict if and only if the allocation's
field has a department quota with nonzero `cpu_used` — the CPU dimension
only; RAM usage is never inspected — and when no such quota exists the
allocation row is deleted. -/
theorem remove_server_blocks_iff_cpu_used {s : St} {c : Claims} {aid : String}
    {a : FieldServerAllocation}
    (hrole : c.role = "center_admin")
    (hfind : findServerAllocById s.serverAllocs aid = some a) :
    (remove_server_from_field s c aid = .error .conflict ↔
      ∃ dq ∈ s.deptQuotas, dq.field_id = a.field_id ∧ dq.cpu_used > 0) ∧
    ((∀ dq ∈ s.deptQuotas, dq.field_id = a.field_id → ¬ dq.cpu_used > 0) →
      remove_server_from_field s c aid =
        .ok { s with
              serverAllocs := removeFirst
                (fun x : FieldServerAllocation => x.id == aid) s.serverAllocs }) := by
  have hb : field_has_dept_quotas s.deptQuotas a.field_id = true ↔
      ∃ dq ∈ s.deptQuotas, dq.field_id = a.field_id ∧ dq.cpu_used > 0 := by
    simp [field_has_dept_quotas, List.any_eq_true]
  have hrun : ∀ r, remove_server_from_field s c aid = r ↔
      (if field_has_dept_quotas s.deptQuotas a.field_id then
        (.error .conflict : Except Err St)
      else .ok { s with
                 serverAllocs := removeFirst
                   (fun x : FieldServerAllocation => x.id == aid) s.serverAllocs }) = r := by
    intro r
    unfold remove_server_from_field
    rw [if_neg (by simp [hrole]), hfind]
  constructor
  · rw [hrun (.error .conflict)]
    by_cases hq : field_has_dept_quotas s.deptQuotas a.field_id = true
    · rw [if_pos hq]
      simpa using hb.1 hq
    · rw [if_neg hq]
      simp only [reduceCtorEq, false_iff]
      intro hex
      exact hq (hb.2 hex)
  · intro hall
    rw [hrun _]
    rw [if_neg ?_]
    intro hq
    rcases hb.1 hq with ⟨dq, hdq, he, hgt⟩
    exact hall dq hdq he hgt

/-- Witness for C6 (amended): in `ramOnlySt` no department quota has
nonzero `cpu_used`, so the removal succeeds and deletes the allocation. -/
theorem remove_server_blocks_iff_cpu_used_witness :
    remove_server_from_field ramOnlySt centerAdmin "a1" =
      .ok { ramOnlySt with serverAllocs := [] } :=
  (remove_server_blocks_iff_cpu_used rfl
    (show findServerAllocById ramOnlySt.serverAllocs "a1" =
      some ⟨"a1", "sv1", "f1", "cadmin"⟩ from rfl)).2 (by decide)

-- ── C10 ───────────────────────────────────────────────────────────────────

/-- C10: when no department quota row exists for the team quota's
`(department, site)`, `update_team_quota` accepts any new limits that are
at least the current `used` values, with no parent-headroom check at
all — the update succeeds unconditionally. -/
theorem update_team_quota_skips_parent_check {s : St} {c : Claims} {qid : String}
    {cl rl : Int} {quota : TeamQuota}
    (hfind : findTeamQuotaById s.teamQuotas qid = some quota)
    (hrole : c.role = "dept_admin")
    (hscope : c.scope_id = some quota.department_id)
    (hnodept : findDeptQuota s.deptQuotas quota.department_id quota.site = none)
    (hcl : quota.cpu_used ≤ cl) (hrl : quota.ram_gb_used ≤ rl) :
    update_team_quota s c qid cl rl =
      .ok { s with
            teamQuotas := updateFirst (fun q : TeamQuota => q.id == qid)
              (fun q => { q with cpu_limit := cl, ram_gb_limit := rl })
              s.teamQuotas } := by
  unfold update_team_quota
  rw [hfind]
  dsimp only
  rw [if_neg (by simp [hrole, hscope]), if_neg (not_lt.mpr hcl),
    if_neg (not_lt.mpr hrl), hnodept]

/-- Witness for C10: raising the limits of `tq1` from 8/8 to 100/100 with
no department quota present succeeds without any QuotaExceeded check. -/
theorem update_team_quota_skips_parent_check_witness :
    update_team_quota noParentSt d1Admin "tq1" 100 100 =
      .ok { noParentSt with
            teamQuotas := [⟨"tq1", "d1", "t1", "site-a", 100, 100, 1, 1⟩] } :=
  update_team_quota_skips_parent_check
    (show findTeamQuotaById noParentSt.teamQuotas "tq1" =
      some ⟨"tq1", "d1", "t1", "site-a", 8, 8, 1, 1⟩ from rfl)
    rfl rfl rfl (by decide) (by decide)

-- ── C8 ────────────────────────────────────────────────────────────────────

/-- C8: for a super-admin actor and an existing team, `delete_team`
removes the team row when the team has zero projects, and fails with
Conflict when the team still has at least one active project. -/
theorem delete_team_blocks_on_active_projects {s : St} {c : Claims} {tid : String}
    {t : Team}
    (hsuper : is_super_admin c = true)
    (hfind : findTeam s.teams tid = some t) :
    ((∀ p ∈ s.projects, p.team_id ≠ tid) →
      delete_team s c tid =
        .ok { s with
              teams := removeFirst (fun x : Team => x.id == tid) s.teams }) ∧
    ((∃ p ∈ s.projects, p.team_id = tid ∧ p.status = "active") →
      delete_team s c tid = .error .conflict) := by
  constructor
  · intro hz
    unfold delete_team
    rw [if_neg (by simp [hsuper]), hfind]
    dsimp only
    rw [if_neg ?_]
    simp only [team_has_projects, List.any_eq_true, not_exists]
    intro p
    simp only [Bool.and_eq_true, beq_iff_eq, not_and]
    intro hp hteam
    exact fun _ => (hz p hp) hteam
  · rintro ⟨p, hp, he, hst⟩
    unfold delete_team
    rw [if_neg (by simp [hsuper]), hfind]
    dsimp only
    rw [if_pos ?_]
    simp only [team_has_projects, List.any_eq_true]
    exact ⟨p, hp, by simp [he, hst]⟩

/-- Witness for C8: deleting `t1` with zero projects succeeds; deleting
it with one active project is a Conflict. -/
theorem delete_team_blocks_on_active_projects_witness :
    delete_team teamOnlySt centerAdmin "t1" = .ok { teamOnlySt with teams := [] } ∧
    delete_team activeProjSt centerAdmin "t1" = .error .conflict :=
  ⟨(delete_team_blocks_on_active_projects
      (show is_super_admin centerAdmin = true from rfl)
      (show findTeam teamOnlySt.teams "t1" = some ⟨"t1", "d1", "team-one"⟩ from rfl)).1
      (by decide),
   (delete_team_blocks_on_active_projects
      (show is_super_admin centerAdmin = true from rfl)
      (show findTeam activeProjSt.teams "t1" = some ⟨"t1", "d1", "team-one"⟩ from rfl)).2
      ⟨⟨"p1", "t1", "proj", "site-a", "bronze", "regular", "t1-proj", 2, 4, "active"⟩,
        by decide, rfl, rfl⟩⟩

-- ── C9 ────────────────────────────────────────────────────────────────────

/-- C9: `delete_project` places no precondition on the project's status:
for a project owned by the acting team lead (with a truthy reservation and
site, and an existing team quota or not), the call succeeds in any status,
credits the reservation back to the `(team, site)` quota row (each
dimension floored at zero) and sets status to `deleting`; and a second
successive call succeeds again and credits the quota a second time. -/
theorem delete_project_any_status_and_double_credit {s : St} {c : Claims}
    {pid : String} {p : Project}
    (hrole : c.role = "team_lead")
    (hfind : findProject s.projects pid = some p)
    (hown : c.scope_id = some p.team_id)
    (hcpu : p.quota_cpu ≠ 0) (hsite : p.site ≠ "") :
    delete_project s c pid =
      .ok { s with
            teamQuotas := updateFirst
              (fun q : TeamQuota => q.team_id == p.team_id && q.site == p.site)
              (fun q => { q with
                cpu_used := max 0 (q.cpu_used - p.quota_cpu),
                ram_gb_used := max 0 (q.ram_gb_used - p.quota_ram_gb) })
              s.teamQuotas,
            projects := updateFirst (fun x : Project => x.id == pid)
              (fun x => { x with status := "deleting" }) s.projects } ∧
    ∀ s1, delete_project s c pid = .ok s1 →
      delete_project s1 c pid =
        .ok { s with
              teamQuotas := updateFirst
                (fun q : TeamQuota => q.team_id == p.team_id && q.site == p.site)
                (fun q => { q with
                  cpu_used := max 0 (q.cpu_used - p.quota_cpu),
                  ram_gb_used := max 0 (q.ram_gb_used - p.quota_ram_gb) })
                (updateFirst
                  (fun q : TeamQuota => q.team_id == p.team_id && q.site == p.site)
                  (fun q => { q with
                    cpu_used := max 0 (q.cpu_used - p.quota_cpu),
                    ram_gb_used := max 0 (q.ram_gb_used - p.quota_ram_gb) })
                  s.teamQuotas),
              projects := updateFirst (fun x : Project => x.id == pid)
                (fun x => { x with status := "deleting" })
                (updateFirst (fun x : Project => x.id == pid)
                  (fun x => { x with status := "deleting" }) s.projects) } := by
  have hcond : (p.quota_cpu != 0 && p.site != "") = true := by
    rw [Bool.and_eq_true, bne_iff_ne, bne_iff_ne]
    exact ⟨hcpu, hsite⟩
  have main : delete_project s c pid =
      .ok { s with
            teamQuotas := updateFirst
              (fun q : TeamQuota => q.team_id == p.team_id && q.site == p.site)
              (fun q => { q with
                cpu_used := max 0 (q.cpu_used - p.quota_cpu),
                ram_gb_used := max 0 (q.ram_gb_used - p.quota_ram_gb) })
              s.teamQuotas,
            projects := updateFirst (fun x : Project => x.id == pid)
              (fun x => { x with status := "deleting" }) s.projects } := by
    unfold delete_project
    rw [if_neg (by simp [hrole]), hfind]
    dsimp only
    rw [if_neg (by simp [hown]), if_pos hcond]
  refine ⟨main, ?_⟩
  intro s1 h1
  rw [main] at h1
  injection h1 with h1
  subst h1
  have hfind2 : findProject
      (updateFirst (fun x : Project => x.id == pid)
        (fun x => { x with status := "deleting" }) s.projects) pid =
      some { p with status := "deleting" } := by
    unfold findProject at hfind ⊢
    rw [@find?_updateFirst Project s.projects (fun x : Project => x.id == pid)
      (fun x => { x with status := "deleting" }) (fun a => rfl), hfind]
    rfl
  unfold delete_project
  rw [if_neg (by simp [hrole])]
  dsimp only
  rw [hfind2]
  dsimp only
  rw [if_neg (by simp [hown]), if_pos hcond]

/-- Witness for C9: deleting a project already in status `failed` succeeds,
credits `(2, 4)` back (used `(5,5) → (3,1)`), and a second delete credits
again (`(3,1) → (1,0)`, floored). -/
theorem delete_project_any_status_and_double_credit_witness :
    delete_project failedProjSt t1Lead "p1" =
      .ok { failedProjSt with
            teamQuotas := [⟨"tq1", "d1", "t1", "site-a", 20, 20, 3, 1⟩],
            projects := [⟨"p1", "t1", "proj", "site-a", "bronze", "regular",
              "t1-proj", 2, 4, "deleting"⟩] } ∧
    delete_project
        { failedProjSt with
          teamQuotas := [⟨"tq1", "d1", "t1", "site-a", 20, 20, 3, 1⟩],
          projects := [⟨"p1", "t1", "proj", "site-a", "bronze", "regular",
            "t1-proj", 2, 4, "deleting"⟩] } t1Lead "p1" =
      .ok { failedProjSt with
            teamQuotas := [⟨"tq1", "d1", "t1", "site-a", 20, 20, 1, 0⟩],
            projects := [⟨"p1", "t1", "proj", "site-a", "bronze", "regular",
              "t1-proj", 2, 4, "deleting"⟩] } := by
  have h := delete_project_any_status_and_double_credit
    (show t1Lead.role = "team_lead" from rfl)
    (show findProject failedProjSt.projects "p1" =
      some ⟨"p1", "t1", "proj", "site-a", "bronze", "regular", "t1-proj",
        2, 4, "failed"⟩ from rfl)
    rfl (by decide) (by decide)
  exact ⟨h.1, h.2 _ h.1⟩

-- ── C7 ────────────────────────────────────────────────────────────────────

theorem buildTeamNodes_team_scope {s : St} {c : Claims}
    (hrole : c.role = "team_lead") :
    ∀ {tl : List TeamQuota} {ns : List TeamQuotaNode},
      buildTeamNodes s c tl = .ok ns → ∀ n ∈ ns, c.scope_id = some n.team_id := by
  intro tl
  induction tl with
  | nil =>
    intro ns h n hn
    simp only [buildTeamNodes, Except.ok.injEq] at h
    subst h
    simp at hn
  | cons tq rest ih =>
    intro ns h n hn
    simp only [buildTeamNodes] at h
    split at h
    · simp at h
    split at h
    · simp at h
    rename_i restNodes hrest
    split at h
    · simp only [Except.ok.injEq] at h
      subst h
      exact ih hrest n hn
    · rename_i hcond
      simp only [Except.ok.injEq] at h
      subst h
      rcases List.mem_cons.1 hn with hn | hn
      · subst hn
        simp only [hrole, beq_self_eq_true, Bool.true_and, Bool.not_eq_true,
          bne_eq_false_iff_eq] at hcond
        exact hcond
      · exact ih hrest n hn

theorem buildDeptNodes_team_scope {s : St} {c : Claims}
    (hrole : c.role = "team_lead") :
    ∀ {dl : List DeptQuota} {ns : List DeptQuotaNode},
      buildDeptNodes s c dl = .ok ns →
      ∀ n ∈ ns, ∀ tn ∈ n.teams, c.scope_id = some tn.team_id := by
  intro dl
  induction dl with
  | nil =>
    intro ns h n hn
    simp only [buildDeptNodes, Except.ok.injEq] at h
    subst h
    simp at hn
  | cons dq rest ih =>
    intro ns h n hn
    simp only [buildDeptNodes] at h
    split at h
    · simp at h
    split at h
    · exact ih h n hn
    split at h
    · simp at h
    rename_i teamNodes hteam
    split at h
    · simp at h
    rename_i restNodes hrest
    simp only [Except.ok.injEq] at h
    subst h
    rcases List.mem_cons.1 hn with hn | hn
    · subst hn
      exact buildTeamNodes_team_scope hrole hteam
    · exact ih hrest n hn

theorem buildFieldNodes_team_scope {s : St} {c : Claims}
    (hrole : c.role = "team_lead") :
    ∀ {fl : List FieldRow} {ns : List FieldNode},
      buildFieldNodes s c fl = .ok ns →
      ∀ n ∈ ns, ∀ dn ∈ n.departments, ∀ tn ∈ dn.teams,
        c.scope_id = some tn.team_id := by
  intro fl
  induction fl with
  | nil =>
    intro ns h n hn
    simp only [buildFieldNodes, Except.ok.injEq] at h
    subst h
    simp at hn
  | cons f rest ih =>
    intro ns h n hn
    simp only [buildFieldNodes] at h
    split at h
    · exact ih h n hn
    split at h
    · simp at h
    rename_i deptNodes hdept
    split at h
    · simp at h
    rename_i restNodes hrest
    simp only [Except.ok.injEq] at h
    subst h
    rcases List.mem_cons.1 hn with hn | hn
    · subst hn
      exact buildDeptNodes_team_scope hrole hdept
    · exact ih hrest n hn

theorem buildCenterNodes_team_scope {s : St} {c : Claims}
    (hrole : c.role = "team_lead") :
    ∀ {cl : List Center} {ns : List CenterNode},
      buildCenterNodes s c cl = .ok ns →
      ∀ cn ∈ ns, ∀ fn ∈ cn.fields, ∀ dn ∈ fn.departments, ∀ tn ∈ dn.teams,
        c.scope_id = some tn.team_id := by
  intro cl
  induction cl with
  | nil =>
    intro ns h cn hcn
    simp only [buildCenterNodes, Except.ok.injEq] at h
    subst h
    simp at hcn
  | cons ctr rest ih =>
    intro ns h cn hcn
    simp only [buildCenterNodes] at h
    split at h
    · simp at h
    rename_i fieldNodes hfield
    split at h
    · simp at h
    rename_i restNodes hrest
    split at h
    · simp only [Except.ok.injEq] at h
      subst h
      rcases List.mem_cons.1 hcn with hcn | hcn
      · subst hcn
        exact buildFieldNodes_team_scope hrole hfield
      · exact ih hrest cn hcn
    · simp only [Except.ok.injEq] at h
      subst h
      exact ih hrest cn hcn

theorem buildFieldNodes_field_scope {s : St} {c : Claims}
    (hrole : c.role = "field_admin") :
    ∀ {fl : List FieldRow} {ns : List FieldNode},
      buildFieldNodes s c fl = .ok ns → ∀ n ∈ ns, c.scope_id = some n.field_id := by
  intro fl
  induction fl with
  | nil =>
    intro ns h n hn
    simp only [buildFieldNodes, Except.ok.injEq] at h
    subst h
    simp at hn
  | cons f rest ih =>
    intro ns h n hn
    simp only [buildFieldNodes] at h
    split at h
    · exact ih h n hn
    rename_i hcond
    split at h
    · simp at h
    split at h
    · simp at h
    rename_i restNodes hrest
    simp only [Except.ok.injEq] at h
    subst h
    rcases List.mem_cons.1 hn with hn | hn
    · subst hn
      simp only [hrole, beq_self_eq_true, Bool.true_and, Bool.not_eq_true,
        bne_eq_false_iff_eq] at hcond
      exact hcond
    · exact ih hrest n hn

theorem buildFieldNodes_all_skipped {s : St} {c : Claims}
    (hrole : c.role = "field_admin") :
    ∀ {fl : List FieldRow}, (∀ f ∈ fl, c.scope_id ≠ some f.id) →
      buildFieldNodes s c fl = .ok [] := by
  intro fl
  induction fl with
  | nil => intro _; rfl
  | cons f rest ih =>
    intro hnone
    simp only [buildFieldNodes]
    rw [if_pos ?_]
    · exact ih (fun x hx => hnone x (List.mem_cons_of_mem f hx))
    · simp only [hrole, beq_self_eq_true, Bool.true_and, bne_iff_ne]
      exact hnone f (List.mem_cons_self f rest)

theorem buildCenterNodes_empty_of_no_field {s : St} {c : Claims}
    (hrole : c.role = "field_admin")
    (hnone : ∀ f ∈ s.fields, c.scope_id ≠ some f.id) :
    ∀ cl : List Center, buildCenterNodes s c cl = .ok [] := by
  intro cl
  induction cl with
  | nil => rfl
  | cons ctr rest ih =>
    simp only [buildCenterNodes]
    rw [buildFieldNodes_all_skipped hrole
      (fun f hf => hnone f (List.mem_of_mem_filter hf)), ih]
    dsimp only
    simp [hrole]

theorem buildCenterNodes_field_scope {s : St} {c : Claims}
    (hrole : c.role = "field_admin") :
    ∀ {cl : List Center} {ns : List CenterNode},
      buildCenterNodes s c cl = .ok ns →
      ∀ cn ∈ ns, ∀ fn ∈ cn.fields, c.scope_id = some fn.field_id := by
  intro cl
  induction cl with
  | nil =>
    intro ns h cn hcn
    simp only [buildCenterNodes, Except.ok.injEq] at h
    subst h
    simp at hcn
  | cons ctr rest ih =>
    intro ns h cn hcn
    simp only [buildCenterNodes] at h
    split at h
    · simp at h
    rename_i fieldNodes hfield
    split at h
    · simp at h
    rename_i restNodes hrest
    split at h
    · simp only [Except.ok.injEq] at h
      subst h
      rcases List.mem_cons.1 hcn with hcn | hcn
      · subst hcn
        exact buildFieldNodes_field_scope hrole hfield
      · exact ih hrest cn hcn
    · simp only [Except.ok.injEq] at h
      subst h
      exact ih hrest cn hcn

/-- C7: the allocation tree is scope-filtered. For a `field_admin`, every
field node in the tree carries exactly the actor's scoped field id, and if
no field row matches their scope the tree has zero centers; for a
`team_lead`, every team-quota node in the tree carries exactly the actor's
scoped team id. -/
theorem get_allocation_tree_scoped {s : St} {c : Claims} {t : List CenterNode}
    (h : get_allocation_tree s c = .ok t) :
    (c.role = "field_admin" →
      (∀ cn ∈ t, ∀ fn ∈ cn.fields, c.scope_id = some fn.field_id) ∧
      ((∀ f ∈ s.fields, c.scope_id ≠ some f.id) → t = [])) ∧
    (c.role = "team_lead" →
      ∀ cn ∈ t, ∀ fn ∈ cn.fields, ∀ dn ∈ fn.departments, ∀ tn ∈ dn.teams,
        c.scope_id = some tn.team_id) := by
  constructor
  · intro hrole
    constructor
    · intro cn hcn fn hfn
      exact buildCenterNodes_field_scope hrole h cn hcn fn hfn
    · intro hnone
      have := buildCenterNodes_empty_of_no_field hrole hnone s.centers
      rw [get_allocation_tree] at h
      rw [this] at h
      injection h with h
      exact h.symm
  · intro hrole
    exact buildCenterNodes_team_scope hrole h

/-- Witness for C7: the concrete tree of `demoSt` as seen by the field
admin scoped to `f1`. -/
theorem get_allocation_tree_scoped_witness :
    (f1Admin.role = "field_admin" →
      (∀ cn ∈ demoTree, ∀ fn ∈ cn.fields, f1Admin.scope_id = some fn.field_id) ∧
      ((∀ f ∈ demoSt.fields, f1Admin.scope_id ≠ some f.id) → demoTree = [])) ∧
    (f1Admin.role = "team_lead" →
      ∀ cn ∈ demoTree, ∀ fn ∈ cn.fields, ∀ dn ∈ fn.departments, ∀ tn ∈ dn.teams,
        f1Admin.scope_id = some tn.team_id) :=
  get_allocation_tree_scoped
    (show get_allocation_tree demoSt f1Admin = .ok demoTree from rfl)

end KWallets
